import Mathlib

/-!
Shallow embedding of the tkcalendar `Calendar` widget (src/tkcalendar/calendar_.py).

Dates are modelled as year/month/day triples of natural numbers, with the
proleptic Gregorian ordinal (`toOrdinal`) matching Python's
`datetime.date.toordinal` on the library's domain (years 1..9999).  Years in
the model are unbounded naturals; the host `datetime` library caps years at
9999 and raises `OverflowError`/`ValueError` at the range limits, a boundary
that is outside this model (every theorem below lives in year >= 1).

Date arithmetic (`timedelta` addition/subtraction) is modelled by iterating
the calendar successor/predecessor functions, which agrees with ordinal
arithmetic (proved below).
-/

namespace TkCalendar

/-- A calendar date, as in Python's `datetime.date` (year, month, day). -/
structure Date where
  year : Nat
  month : Nat
  day : Nat
deriving DecidableEq, Repr

/-- Gregorian leap-year predicate, as in `calendar.isleap` /
`datetime`'s `_is_leap`. -/
def isLeap (y : Nat) : Bool :=
  (y % 4 == 0 && y % 100 != 0) || (y % 400 == 0)

/-- Number of days in a month, as in `calendar.monthrange(y, m)[1]` /
`datetime`'s `_days_in_month`. -/
def daysInMonth (y m : Nat) : Nat :=
  if m = 2 then (if isLeap y then 29 else 28)
  else if m = 4 ∨ m = 6 ∨ m = 9 ∨ m = 11 then 30
  else 31

/-- Number of days in the months strictly before month `m` of year `y`
(so `daysBeforeMonth y 1 = 0`), as in `datetime`'s `_days_before_month`. -/
def daysBeforeMonth (y : Nat) : Nat → Nat
  | 0 => 0
  | m + 1 => daysBeforeMonth y m + (if m = 0 then 0 else daysInMonth y m)

/-- Number of leap years among years `1..y-1`. -/
def leapsBefore (y : Nat) : Nat :=
  (y - 1) / 4 + (y - 1) / 400 - (y - 1) / 100

/-- Number of days before January 1st of year `y`, as in `datetime`'s
`_days_before_year`. -/
def daysBeforeYear (y : Nat) : Nat :=
  365 * (y - 1) + leapsBefore y

/-- Number of days in year `y`. -/
def daysInYear (y : Nat) : Nat :=
  365 + (if isLeap y then 1 else 0)

/-- Proleptic Gregorian ordinal of a date (day 1 is 0001-01-01), as in
`datetime.date.toordinal`. -/
def toOrdinal (d : Date) : Nat :=
  daysBeforeYear d.year + daysBeforeMonth d.year d.month + d.day

/-- Python's `date.weekday()`: Monday is 0, Sunday is 6. -/
def pyWeekday (d : Date) : Nat :=
  (toOrdinal d + 6) % 7

/-- Validity of a date (the constraints enforced by `datetime.date`, minus
the year-9999 cap, which is outside the model). -/
def ValidDate (d : Date) : Prop :=
  1 ≤ d.year ∧ 1 ≤ d.month ∧ d.month ≤ 12 ∧ 1 ≤ d.day ∧
    d.day ≤ daysInMonth d.year d.month

instance (d : Date) : Decidable (ValidDate d) := by
  unfold ValidDate; infer_instance

/-- Calendar successor of a date (the date one day later). -/
def nextDate (d : Date) : Date :=
  if d.day < daysInMonth d.year d.month then ⟨d.year, d.month, d.day + 1⟩
  else if d.month < 12 then ⟨d.year, d.month + 1, 1⟩
  else ⟨d.year + 1, 1, 1⟩

/-- Calendar predecessor of a date (the date one day earlier). -/
def prevDate (d : Date) : Date :=
  if 1 < d.day then ⟨d.year, d.month, d.day - 1⟩
  else if 1 < d.month then ⟨d.year, d.month - 1, daysInMonth d.year (d.month - 1)⟩
  else ⟨d.year - 1, 12, 31⟩

/-- Model of Python's `date + timedelta(days = n)`. -/
def addDays : Date → Nat → Date
  | d, 0 => d
  | d, n + 1 => addDays (nextDate d) n

/-- Model of Python's `date - timedelta(days = n)`. -/
def subDays : Date → Nat → Date
  | d, 0 => d
  | d, n + 1 => prevDate (subDays d n)

/-! ### Basic arithmetic lemmas about the date model -/

theorem isLeap_iff (y : Nat) :
    isLeap y = true ↔ ((y % 4 = 0 ∧ y % 100 ≠ 0) ∨ y % 400 = 0) := by
  simp [isLeap]

theorem daysInMonth_bounds (y m : Nat) (h1 : 1 ≤ m) (h2 : m ≤ 12) :
    28 ≤ daysInMonth y m ∧ daysInMonth y m ≤ 31 := by
  unfold daysInMonth
  interval_cases m <;> simp <;> cases isLeap y <;> simp

theorem daysBeforeMonth_succ (y m : Nat) (h : 1 ≤ m) :
    daysBeforeMonth y (m + 1) = daysBeforeMonth y m + daysInMonth y m := by
  cases m with
  | zero => omega
  | succ k => simp [daysBeforeMonth]

theorem daysBeforeMonth_mono (y : Nat) {a b : Nat} (h : a ≤ b) :
    daysBeforeMonth y a ≤ daysBeforeMonth y b := by
  induction b with
  | zero => simp_all
  | succ k ih =>
    rcases Nat.lt_or_ge a (k + 1) with hlt | hge
    · exact le_trans (ih (by omega)) (by simp [daysBeforeMonth])
    · have : a = k + 1 := by omega
      simp [this]

theorem daysBeforeMonth_13 (y : Nat) :
    daysBeforeMonth y 13 = daysInYear y := by
  have h : daysBeforeMonth y 13 =
      daysInMonth y 1 + daysInMonth y 2 + daysInMonth y 3 + daysInMonth y 4 +
      daysInMonth y 5 + daysInMonth y 6 + daysInMonth y 7 + daysInMonth y 8 +
      daysInMonth y 9 + daysInMonth y 10 + daysInMonth y 11 + daysInMonth y 12 := by
    show daysBeforeMonth y 13 = _
    norm_num [daysBeforeMonth]
  rw [h]
  unfold daysInMonth daysInYear
  cases isLeap y <;> norm_num

theorem leapsBefore_succ (y : Nat) (h : 1 ≤ y) :
    leapsBefore (y + 1) = leapsBefore y + (if isLeap y then 1 else 0) := by
  unfold leapsBefore
  have hif : (if isLeap y then (1 : Nat) else 0)
      = (if ((y % 4 = 0 ∧ y % 100 ≠ 0) ∨ y % 400 = 0) then 1 else 0) := by
    by_cases hc : ((y % 4 = 0 ∧ y % 100 ≠ 0) ∨ y % 400 = 0) <;> simp [isLeap_iff, hc]
  rw [hif]
  have hy1 : y - 1 + 1 = y := by omega
  have h4 := Nat.succ_div (y - 1) 4
  have h100 := Nat.succ_div (y - 1) 100
  have h400 := Nat.succ_div (y - 1) 400
  rw [hy1] at h4 h100 h400
  have hle : (y - 1) / 100 ≤ (y - 1) / 4 :=
    Nat.div_le_div_left (by norm_num) (by norm_num)
  simp only [Nat.add_sub_cancel]
  split_ifs at h4 h100 h400 ⊢ <;> omega

theorem daysBeforeYear_succ (y : Nat) (h : 1 ≤ y) :
    daysBeforeYear (y + 1) = daysBeforeYear y + daysInYear y := by
  unfold daysBeforeYear daysInYear
  rw [leapsBefore_succ y h]
  have : 365 * (y + 1 - 1) = 365 * (y - 1) + 365 := by omega
  rw [this]
  ring

theorem leapsBefore_le (y : Nat) : leapsBefore y ≤ y - 1 := by
  unfold leapsBefore
  have h4 : (y - 1) / 4 ≤ y - 1 := Nat.div_le_self _ _
  have h400 : (y - 1) / 400 ≤ (y - 1) / 100 :=
    Nat.div_le_div_left (by norm_num) (by norm_num)
  omega

theorem toOrdinal_pos (d : Date) (h : 1 ≤ d.day) : 1 ≤ toOrdinal d := by
  unfold toOrdinal; omega


theorem valid_nextDate {d : Date} (hv : ValidDate d) : ValidDate (nextDate d) := by
  obtain ⟨dy, dm, dd⟩ := d
  obtain ⟨hy, hm1, hm2, hd1, hd2⟩ := hv
  dsimp only at hy hm1 hm2 hd1 hd2
  have hb1 : dm + 1 ≤ 12 → 28 ≤ daysInMonth dy (dm + 1) ∧ daysInMonth dy (dm + 1) ≤ 31 :=
    fun h => daysInMonth_bounds dy (dm + 1) (by omega) h
  have hb2 := daysInMonth_bounds (dy + 1) 1 (by norm_num) (by norm_num)
  unfold nextDate ValidDate
  dsimp only
  split_ifs with h1 h2 <;> dsimp only <;> refine ⟨by omega, by omega, by omega, by omega, ?_⟩
  · omega
  · have := hb1 (by omega); omega
  · omega

theorem toOrdinal_nextDate {d : Date} (hv : ValidDate d) :
    toOrdinal (nextDate d) = toOrdinal d + 1 := by
  obtain ⟨dy, dm, dd⟩ := d
  obtain ⟨hy, hm1, hm2, hd1, hd2⟩ := hv
  dsimp only at hy hm1 hm2 hd1 hd2
  unfold nextDate toOrdinal
  dsimp only
  split_ifs with h1 h2 <;> dsimp only
  · omega
  · have hsucc := daysBeforeMonth_succ dy dm hm1
    omega
  · have hm : dm = 12 := by omega
    subst hm
    have h13 := daysBeforeMonth_13 dy
    have h12 : daysBeforeMonth dy 13 = daysBeforeMonth dy 12 + daysInMonth dy 12 :=
      daysBeforeMonth_succ dy 12 (by norm_num)
    have hdy := daysBeforeYear_succ dy hy
    have hb1 : daysBeforeMonth (dy + 1) 1 = 0 := by
      norm_num [daysBeforeMonth]
    unfold daysInYear at h13 hdy
    omega

theorem valid_addDays {d : Date} (hv : ValidDate d) (n : Nat) :
    ValidDate (addDays d n) := by
  induction n generalizing d with
  | zero => exact hv
  | succ k ih => exact ih (valid_nextDate hv)

theorem toOrdinal_addDays {d : Date} (hv : ValidDate d) (n : Nat) :
    toOrdinal (addDays d n) = toOrdinal d + n := by
  induction n generalizing d with
  | zero => rfl
  | succ k ih =>
    show toOrdinal (addDays (nextDate d) k) = toOrdinal d + (k + 1)
    rw [ih (valid_nextDate hv), toOrdinal_nextDate hv]
    omega

theorem addDays_add (d : Date) (a b : Nat) :
    addDays d (a + b) = addDays (addDays d a) b := by
  induction a generalizing d with
  | zero => rw [Nat.zero_add]; rfl
  | succ k ih =>
    have h : k + 1 + b = (k + b) + 1 := by omega
    rw [h]
    show addDays (nextDate d) (k + b) = addDays (addDays d (k + 1)) b
    rw [ih (nextDate d)]
    rfl

theorem addDays_succ_right (d : Date) (n : Nat) :
    addDays d (n + 1) = nextDate (addDays d n) := by
  induction n generalizing d with
  | zero => rfl
  | succ k ih =>
    show addDays (nextDate d) (k + 1) = nextDate (addDays (nextDate d) k)
    exact ih (nextDate d)

theorem toOrdinal_min {d : Date} (hv : ValidDate d) (h : toOrdinal d ≤ 1) :
    d = ⟨1, 1, 1⟩ := by
  obtain ⟨dy, dm, dd⟩ := d
  obtain ⟨hy, hm1, hm2, hd1, hd2⟩ := hv
  dsimp only at hy hm1 hm2 hd1 hd2
  unfold toOrdinal at h
  dsimp only at h
  have hdb : daysBeforeMonth dy 1 ≤ daysBeforeMonth dy dm := daysBeforeMonth_mono dy hm1
  have hdb1 : daysBeforeMonth dy 1 = 0 := by norm_num [daysBeforeMonth]
  have hdd : dd = 1 := by omega
  have hdm0 : daysBeforeMonth dy dm = 0 := by omega
  have hdy0 : daysBeforeYear dy = 0 := by omega
  have hmm : dm = 1 := by
    by_contra hne
    have h2 : 2 ≤ dm := by omega
    have : daysBeforeMonth dy 2 ≤ daysBeforeMonth dy dm := daysBeforeMonth_mono dy h2
    have hdb2 : daysBeforeMonth dy 2 = daysInMonth dy 1 := by
      norm_num [daysBeforeMonth]
    have := daysInMonth_bounds dy 1 (by norm_num) (by norm_num)
    omega
  have hyy : dy = 1 := by
    by_contra hne
    have h2 : 2 ≤ dy := by omega
    have hdy2 : daysBeforeYear 2 = daysBeforeYear 1 + daysInYear 1 :=
      daysBeforeYear_succ 1 (by norm_num)
    have hdy1 : daysBeforeYear 1 = 0 := by decide
    have hmono : daysBeforeYear 2 ≤ daysBeforeYear dy := by
      clear hdy0
      have : ∀ k, daysBeforeYear 2 ≤ daysBeforeYear (2 + k) := by
        intro k
        induction k with
        | zero => exact le_refl _
        | succ n ih =>
          have hstep := daysBeforeYear_succ (2 + n) (by omega)
          have h2n : 2 + (n + 1) = 2 + n + 1 := by omega
          rw [h2n]
          unfold daysInYear at hstep
          omega
      have hk : dy = 2 + (dy - 2) := by omega
      rw [hk]
      exact this (dy - 2)
    unfold daysInYear at hdy2
    omega
  subst hdd; subst hmm; subst hyy; rfl

theorem prevDate_spec {d : Date} (hv : ValidDate d) (h2 : 2 ≤ toOrdinal d) :
    ValidDate (prevDate d) ∧ toOrdinal (prevDate d) + 1 = toOrdinal d ∧
      nextDate (prevDate d) = d := by
  obtain ⟨dy, dm, dd⟩ := d
  obtain ⟨hy, hm1, hm2, hd1, hd2⟩ := hv
  dsimp only at hy hm1 hm2 hd1 hd2
  have htri : 2 ≤ dd ∨ 2 ≤ dm ∨ 2 ≤ dy := by
    by_contra hc
    push_neg at hc
    have hdd : dd = 1 := by omega
    have hmm : dm = 1 := by omega
    have hyy : dy = 1 := by omega
    subst hdd; subst hmm; subst hyy
    have : toOrdinal ⟨1, 1, 1⟩ = 1 := by decide
    omega
  unfold prevDate
  dsimp only
  split_ifs with h1 hm
  · refine ⟨⟨hy, hm1, hm2, by dsimp only; omega, by dsimp only; omega⟩, ?_, ?_⟩
    · unfold toOrdinal at h2 ⊢
      dsimp only at h2 ⊢
      omega
    · unfold nextDate
      dsimp only
      rw [if_pos (by omega : dd - 1 < daysInMonth dy dm)]
      have he : dd - 1 + 1 = dd := by omega
      rw [he]
  · have hdim := daysInMonth_bounds dy (dm - 1) (by omega) (by omega)
    have hsucc := daysBeforeMonth_succ dy (dm - 1) (by omega)
    have hmm : dm - 1 + 1 = dm := by omega
    rw [hmm] at hsucc
    refine ⟨⟨hy, by dsimp only; omega, by dsimp only; omega, by dsimp only; omega,
      by dsimp only; omega⟩, ?_, ?_⟩
    · unfold toOrdinal at h2 ⊢
      dsimp only at h2 ⊢
      have hdd : dd = 1 := by omega
      omega
    · unfold nextDate
      dsimp only
      rw [if_neg (by omega : ¬ daysInMonth dy (dm - 1) < daysInMonth dy (dm - 1)),
        if_pos (by omega : dm - 1 < 12)]
      have hdd : dd = 1 := by omega
      rw [hmm, hdd]
  · have hy2 : 2 ≤ dy := by omega
    have hdd : dd = 1 := by omega
    have hmm : dm = 1 := by omega
    subst hdd; subst hmm
    have hdim31 : daysInMonth (dy - 1) 12 = 31 := by
      unfold daysInMonth; norm_num
    have h13 := daysBeforeMonth_13 (dy - 1)
    have h12 : daysBeforeMonth (dy - 1) 13
        = daysBeforeMonth (dy - 1) 12 + daysInMonth (dy - 1) 12 :=
      daysBeforeMonth_succ (dy - 1) 12 (by norm_num)
    have hdy := daysBeforeYear_succ (dy - 1) (by omega)
    have hyy : dy - 1 + 1 = dy := by omega
    rw [hyy] at hdy
    refine ⟨⟨by dsimp only; omega, by norm_num, by norm_num, by dsimp only; omega,
      by dsimp only; omega⟩, ?_, ?_⟩
    · unfold toOrdinal
      dsimp only
      have hb1 : daysBeforeMonth dy 1 = 0 := by norm_num [daysBeforeMonth]
      unfold daysInYear at h13 hdy
      omega
    · unfold nextDate
      dsimp only
      rw [hdim31]
      rw [if_neg (by norm_num), if_neg (by norm_num)]
      rw [hyy]

theorem subDays_spec {d : Date} (hv : ValidDate d) {k : Nat}
    (hk : k + 1 ≤ toOrdinal d) :
    ValidDate (subDays d k) ∧ toOrdinal (subDays d k) + k = toOrdinal d ∧
      addDays (subDays d k) k = d := by
  induction k with
  | zero => exact ⟨hv, rfl, rfl⟩
  | succ n ih =>
    obtain ⟨hv1, hord, hrt⟩ := ih (by omega)
    have h2 : 2 ≤ toOrdinal (subDays d n) := by omega
    obtain ⟨hv2, hord2, hnp⟩ := prevDate_spec hv1 h2
    refine ⟨hv2, ?_, ?_⟩
    · show toOrdinal (prevDate (subDays d n)) + (n + 1) = toOrdinal d
      omega
    · show addDays (prevDate (subDays d n)) (n + 1) = d
      have he : addDays (prevDate (subDays d n)) (n + 1)
          = addDays (nextDate (prevDate (subDays d n))) n := rfl
      rw [he, hnp, hrt]

theorem addDays_subDays {d : Date} (hv : ValidDate d) {k n : Nat}
    (hk : k + 1 ≤ toOrdinal d) (hkn : k ≤ n) :
    addDays (subDays d k) n = addDays d (n - k) := by
  obtain ⟨hv1, _, hrt⟩ := subDays_spec hv hk
  have hsplit : n = k + (n - k) := by omega
  rw [hsplit, addDays_add, hrt]
  congr 1
  omega

/-! ### Month-level stepping lemmas -/

theorem addDays_first_in_month (y m k : Nat) (hk : k < daysInMonth y m) :
    addDays ⟨y, m, 1⟩ k = ⟨y, m, k + 1⟩ := by
  induction k with
  | zero => rfl
  | succ n ih =>
    rw [addDays_succ_right, ih (by omega)]
    unfold nextDate
    dsimp only
    rw [if_pos (by omega)]

theorem nextDate_month_last (y m : Nat) (hm1 : 1 ≤ m) (hm2 : m ≤ 12) :
    nextDate ⟨y, m, daysInMonth y m⟩
      = ⟨if m + 1 = 13 then y + 1 else y, if m + 1 = 13 then 1 else m + 1, 1⟩ := by
  unfold nextDate
  dsimp only
  rw [if_neg (by omega)]
  by_cases h : m + 1 = 13
  · rw [if_neg (by omega), if_pos h, if_pos h]
  · rw [if_pos (by omega), if_neg h, if_neg h]

theorem addDays_month_length (y m : Nat) (hm1 : 1 ≤ m) (hm2 : m ≤ 12) :
    addDays ⟨y, m, 1⟩ (daysInMonth y m)
      = ⟨if m + 1 = 13 then y + 1 else y, if m + 1 = 13 then 1 else m + 1, 1⟩ := by
  have hpos : 1 ≤ daysInMonth y m := by
    have := daysInMonth_bounds y m hm1 hm2; omega
  have h1 : daysInMonth y m = (daysInMonth y m - 1) + 1 := by omega
  rw [h1, addDays_succ_right, addDays_first_in_month y m _ (by omega)]
  have h2 : daysInMonth y m - 1 + 1 = daysInMonth y m := by omega
  rw [h2, nextDate_month_last y m hm1 hm2]

/-! ### The month grid

Models `calendar.Calendar(firstweekday=MONDAY).monthdatescalendar` (an
external stdlib collaborator) and the 6-row extension performed by
`Calendar._display_calendar` (calendar_.py lines 534-548). -/

/-- One displayed week: the 7 consecutive dates starting `7 * w` days after
`start`. -/
def weekRow (start : Date) (w : Nat) : List Date :=
  (List.range 7).map (fun j => addDays start (7 * w + j))

/-- Model of `calendar.Calendar(MONDAY).monthdatescalendar(y, m)`: full
Monday-to-Sunday weeks covering month `m` of year `y`.  The stdlib iterates
from `first - days_before` where `days_before = first.weekday()`, for
`days_before + ndays + days_after` days, `days_after` completing the last
week; hence `(days_before + ndays + 6) / 7` weeks of 7 consecutive dates. -/
def monthdatescalendar (y m : Nat) : List (List Date) :=
  let first : Date := ⟨y, m, 1⟩
  let nweeks := (pyWeekday first + daysInMonth y m + 6) / 7
  let start := subDays first (pyWeekday first)
  (List.range nweeks).map (weekRow start)

/-- The 6-row grid of dates computed by `Calendar._display_calendar`
(lines 534-548): the month's calendar `cal`, extended with one or two rows
of the next month's calendar whenever `len(cal) < 6`; `cal[-1][-1]` is
modelled by `getD` at the last index. -/
def displayCalendarRows (y m : Nat) : List (List Date) :=
  let cal := monthdatescalendar y m
  let nm := if m + 1 = 13 then 1 else m + 1
  let ny := if m + 1 = 13 then y + 1 else y
  if cal.length < 6 then
    let lastWeek := cal.getD (cal.length - 1) []
    let lastCell := lastWeek.getD (lastWeek.length - 1) ⟨0, 0, 0⟩
    let i := if lastCell.month = m then 0 else 1
    let cal2 := monthdatescalendar ny nm
    let cal3 := cal ++ [cal2.getD i []]
    if cal3.length < 6 then cal3 ++ [cal2.getD (i + 1) []] else cal3
  else cal

/-- The date shown in the grid cell at `row`, `col` (0-based, row-major). -/
def gridCellDate (y m row col : Nat) : Date :=
  ((displayCalendarRows y m).getD row []).getD col ⟨0, 0, 0⟩

theorem rangeMap_getD {α : Type} (n i : Nat) (f : Nat → α) (dflt : α)
    (h : i < n) : ((List.range n).map f).getD i dflt = f i := by
  rw [List.getD_eq_getElem?_getD, List.getElem?_map, List.getElem?_range h]
  rfl

theorem weekRow_length (start : Date) (w : Nat) : (weekRow start w).length = 7 := by
  simp [weekRow]

theorem weekRow_getD (start : Date) (w j : Nat) (dflt : Date) (h : j < 7) :
    (weekRow start w).getD j dflt = addDays start (7 * w + j) := by
  unfold weekRow
  rw [rangeMap_getD _ _ _ _ h]

theorem monthdatescalendar_length (y m : Nat) :
    (monthdatescalendar y m).length
      = (pyWeekday ⟨y, m, 1⟩ + daysInMonth y m + 6) / 7 := by
  simp [monthdatescalendar]

theorem monthdatescalendar_getD (y m w : Nat)
    (h : w < (pyWeekday ⟨y, m, 1⟩ + daysInMonth y m + 6) / 7) :
    (monthdatescalendar y m).getD w []
      = weekRow (subDays ⟨y, m, 1⟩ (pyWeekday ⟨y, m, 1⟩)) w := by
  unfold monthdatescalendar
  exact rangeMap_getD _ _ _ _ h

theorem displayCalendarRows_eq (y m : Nat) (hy : 1 ≤ y) (hm1 : 1 ≤ m) (hm2 : m ≤ 12) :
    displayCalendarRows y m
      = (List.range 6).map (weekRow (subDays ⟨y, m, 1⟩ (pyWeekday ⟨y, m, 1⟩))) := by
  have hnd := daysInMonth_bounds y m hm1 hm2
  have hvf : ValidDate ⟨y, m, 1⟩ := ⟨hy, hm1, hm2, le_refl 1, by dsimp only; omega⟩
  have hwd : pyWeekday ⟨y, m, 1⟩ < 7 := Nat.mod_lt _ (by norm_num)
  have hF1 : 1 ≤ toOrdinal ⟨y, m, 1⟩ := toOrdinal_pos _ (le_refl 1)
  have hwdF : pyWeekday ⟨y, m, 1⟩ + 1 ≤ toOrdinal ⟨y, m, 1⟩ := by
    unfold pyWeekday
    omega
  have hnm1 : 1 ≤ (if m + 1 = 13 then 1 else m + 1) := by split <;> omega
  have hnm2 : (if m + 1 = 13 then 1 else m + 1) ≤ 12 := by split <;> omega
  have hny : 1 ≤ (if m + 1 = 13 then y + 1 else y) := by split <;> omega
  have hmneq : (if m + 1 = 13 then 1 else m + 1) ≠ m := by split <;> omega
  have hnd2 := daysInMonth_bounds (if m + 1 = 13 then y + 1 else y)
    (if m + 1 = 13 then 1 else m + 1) hnm1 hnm2
  have hvf2 : ValidDate ⟨if m + 1 = 13 then y + 1 else y,
      if m + 1 = 13 then 1 else m + 1, 1⟩ :=
    ⟨hny, hnm1, hnm2, le_refl 1, by dsimp only; omega⟩
  have hfirst2 := addDays_month_length y m hm1 hm2
  have hF2 : toOrdinal ⟨if m + 1 = 13 then y + 1 else y,
        if m + 1 = 13 then 1 else m + 1, 1⟩
      = toOrdinal ⟨y, m, 1⟩ + daysInMonth y m := by
    rw [← hfirst2]
    exact toOrdinal_addDays hvf _
  have hwd2 : pyWeekday ⟨if m + 1 = 13 then y + 1 else y,
        if m + 1 = 13 then 1 else m + 1, 1⟩
      = (pyWeekday ⟨y, m, 1⟩ + daysInMonth y m) % 7 := by
    unfold pyWeekday
    rw [hF2]
    omega
  have hwd2F : pyWeekday ⟨if m + 1 = 13 then y + 1 else y,
        if m + 1 = 13 then 1 else m + 1, 1⟩ + 1
      ≤ toOrdinal ⟨if m + 1 = 13 then y + 1 else y,
        if m + 1 = 13 then 1 else m + 1, 1⟩ := by
    rw [hwd2, hF2]
    omega
  have hbridge : ∀ i row j,
      pyWeekday ⟨if m + 1 = 13 then y + 1 else y,
        if m + 1 = 13 then 1 else m + 1, 1⟩ ≤ 7 * i + j →
      pyWeekday ⟨y, m, 1⟩ + daysInMonth y m ≤ 7 * row + j →
      7 * i + j - pyWeekday ⟨if m + 1 = 13 then y + 1 else y,
        if m + 1 = 13 then 1 else m + 1, 1⟩
        = 7 * row + j - pyWeekday ⟨y, m, 1⟩ - daysInMonth y m →
      addDays (subDays ⟨if m + 1 = 13 then y + 1 else y,
          if m + 1 = 13 then 1 else m + 1, 1⟩
        (pyWeekday ⟨if m + 1 = 13 then y + 1 else y,
          if m + 1 = 13 then 1 else m + 1, 1⟩)) (7 * i + j)
        = addDays (subDays ⟨y, m, 1⟩ (pyWeekday ⟨y, m, 1⟩)) (7 * row + j) := by
    intro i row j hi hrow hexp
    rw [addDays_subDays hvf2 hwd2F hi,
        addDays_subDays hvf hwdF (by omega)]
    have hsplit : 7 * row + j - pyWeekday ⟨y, m, 1⟩
        = daysInMonth y m
            + (7 * row + j - pyWeekday ⟨y, m, 1⟩ - daysInMonth y m) := by omega
    rw [hsplit, addDays_add, hfirst2, hexp]
  have hrows : ∀ i row,
      pyWeekday ⟨if m + 1 = 13 then y + 1 else y,
        if m + 1 = 13 then 1 else m + 1, 1⟩ ≤ 7 * i →
      pyWeekday ⟨y, m, 1⟩ + daysInMonth y m ≤ 7 * row →
      7 * i - pyWeekday ⟨if m + 1 = 13 then y + 1 else y,
        if m + 1 = 13 then 1 else m + 1, 1⟩
        = 7 * row - pyWeekday ⟨y, m, 1⟩ - daysInMonth y m →
      weekRow (subDays ⟨if m + 1 = 13 then y + 1 else y,
          if m + 1 = 13 then 1 else m + 1, 1⟩
        (pyWeekday ⟨if m + 1 = 13 then y + 1 else y,
          if m + 1 = 13 then 1 else m + 1, 1⟩)) i
        = weekRow (subDays ⟨y, m, 1⟩ (pyWeekday ⟨y, m, 1⟩)) row := by
    intro i row h1 h2 h3
    unfold weekRow
    apply List.map_congr_left
    intro j hj
    have hj7 : j < 7 := List.mem_range.mp hj
    exact hbridge i row j (by omega) (by omega) (by omega)
  have hn2pos : 2 < (pyWeekday ⟨if m + 1 = 13 then y + 1 else y,
        if m + 1 = 13 then 1 else m + 1, 1⟩
      + daysInMonth (if m + 1 = 13 then y + 1 else y)
          (if m + 1 = 13 then 1 else m + 1) + 6) / 7 := by
    omega
  have hmdc : ∀ k, (pyWeekday ⟨y, m, 1⟩ + daysInMonth y m + 6) / 7 = k →
      monthdatescalendar y m
        = (List.range k).map (weekRow (subDays ⟨y, m, 1⟩ (pyWeekday ⟨y, m, 1⟩))) := by
    intro k hk
    unfold monthdatescalendar
    dsimp only
    rw [hk]
  have hv456 : (pyWeekday ⟨y, m, 1⟩ + daysInMonth y m + 6) / 7 = 4
      ∨ (pyWeekday ⟨y, m, 1⟩ + daysInMonth y m + 6) / 7 = 5
      ∨ (pyWeekday ⟨y, m, 1⟩ + daysInMonth y m + 6) / 7 = 6 := by
    omega
  unfold displayCalendarRows
  dsimp only
  rw [monthdatescalendar_length]
  rcases hv456 with hv | hv | hv
  · -- four-week month (February starting on Monday): two rows are appended
    have hc : pyWeekday ⟨y, m, 1⟩ = 0 ∧ daysInMonth y m = 28 := by omega
    rw [hv]
    rw [if_pos (by norm_num)]
    have hlw : (monthdatescalendar y m).getD (4 - 1) []
        = weekRow (subDays ⟨y, m, 1⟩ (pyWeekday ⟨y, m, 1⟩)) 3 :=
      monthdatescalendar_getD y m 3 (by omega)
    rw [hlw, weekRow_length]
    have h76 : (7 : Nat) - 1 = 6 := by norm_num
    rw [h76, weekRow_getD _ _ _ _ (by norm_num)]
    have hcell : addDays (subDays ⟨y, m, 1⟩ (pyWeekday ⟨y, m, 1⟩)) (7 * 3 + 6)
        = (⟨y, m, 28⟩ : Date) := by
      rw [addDays_subDays hvf hwdF (by omega)]
      have he : 7 * 3 + 6 - pyWeekday ⟨y, m, 1⟩ = 27 := by omega
      rw [he, addDays_first_in_month y m 27 (by omega)]
    rw [hcell]
    rw [if_pos (by dsimp only : (⟨y, m, 28⟩ : Date).month = m)]
    rw [monthdatescalendar_getD _ _ 0 (by omega),
      monthdatescalendar_getD _ _ (0 + 1) (by omega)]
    rw [hrows 0 4 (by omega) (by omega) (by omega)]
    rw [hrows (0 + 1) 5 (by omega) (by omega) (by omega)]
    simp only [List.length_append, List.length_singleton, monthdatescalendar_length, hv]
    rw [if_pos (by norm_num)]
    rw [hmdc 4 hv]
    have hr6 : List.range 6 = List.range 4 ++ [4, 5] := by decide
    rw [hr6, List.map_append]
    simp [List.append_assoc]
  · -- five-week month: one row of the next month's calendar is appended
    rw [hv]
    rw [if_pos (by norm_num)]
    have hlw : (monthdatescalendar y m).getD (5 - 1) []
        = weekRow (subDays ⟨y, m, 1⟩ (pyWeekday ⟨y, m, 1⟩)) 4 :=
      monthdatescalendar_getD y m 4 (by omega)
    rw [hlw, weekRow_length]
    have h76 : (7 : Nat) - 1 = 6 := by norm_num
    rw [h76, weekRow_getD _ _ _ _ (by norm_num)]
    by_cases hdvd : 7 ∣ (pyWeekday ⟨y, m, 1⟩ + daysInMonth y m)
    · -- the month ends on a Sunday: the code appends week 0 of the next month
      have h35 : pyWeekday ⟨y, m, 1⟩ + daysInMonth y m = 35 := by omega
      have hcell : addDays (subDays ⟨y, m, 1⟩ (pyWeekday ⟨y, m, 1⟩)) (7 * 4 + 6)
          = (⟨y, m, daysInMonth y m⟩ : Date) := by
        rw [addDays_subDays hvf hwdF (by omega)]
        have he : 7 * 4 + 6 - pyWeekday ⟨y, m, 1⟩ = daysInMonth y m - 1 := by omega
        rw [he, addDays_first_in_month y m _ (by omega)]
        have he2 : daysInMonth y m - 1 + 1 = daysInMonth y m := by omega
        rw [he2]
      rw [hcell]
      rw [if_pos (by dsimp only : (⟨y, m, daysInMonth y m⟩ : Date).month = m)]
      rw [monthdatescalendar_getD _ _ 0 (by omega)]
      rw [hrows 0 5 (by omega) (by omega) (by omega)]
      simp only [List.length_append, List.length_singleton, monthdatescalendar_length, hv]
      rw [if_neg (by norm_num)]
      rw [hmdc 5 hv]
      have hr6 : List.range 6 = List.range 5 ++ [5] := by decide
      rw [hr6, List.map_append]
      simp
    · -- the month ends mid-week: the code appends week 1 of the next month
      have hr16 : 1 ≤ (pyWeekday ⟨y, m, 1⟩ + daysInMonth y m) % 7
          ∧ (pyWeekday ⟨y, m, 1⟩ + daysInMonth y m) % 7 ≤ 6 := by omega
      have hcell : addDays (subDays ⟨y, m, 1⟩ (pyWeekday ⟨y, m, 1⟩)) (7 * 4 + 6)
          = (⟨if m + 1 = 13 then y + 1 else y, if m + 1 = 13 then 1 else m + 1,
              7 - (pyWeekday ⟨y, m, 1⟩ + daysInMonth y m) % 7⟩ : Date) := by
        rw [addDays_subDays hvf hwdF (by omega)]
        have he : 7 * 4 + 6 - pyWeekday ⟨y, m, 1⟩
            = daysInMonth y m
                + (6 - (pyWeekday ⟨y, m, 1⟩ + daysInMonth y m) % 7) := by omega
        rw [he, addDays_add, hfirst2]
        rw [addDays_first_in_month _ _ _ (by omega)]
        have he2 : 6 - (pyWeekday ⟨y, m, 1⟩ + daysInMonth y m) % 7 + 1
            = 7 - (pyWeekday ⟨y, m, 1⟩ + daysInMonth y m) % 7 := by omega
        rw [he2]
      rw [hcell]
      rw [if_neg (show ¬ ((⟨if m + 1 = 13 then y + 1 else y,
        if m + 1 = 13 then 1 else m + 1,
        7 - (pyWeekday ⟨y, m, 1⟩ + daysInMonth y m) % 7⟩ : Date).month = m)
        from hmneq)]
      rw [monthdatescalendar_getD _ _ 1 (by omega)]
      rw [hrows 1 5 (by omega) (by omega) (by omega)]
      simp only [List.length_append, List.length_singleton, monthdatescalendar_length, hv]
      rw [if_neg (by norm_num)]
      rw [hmdc 5 hv]
      have hr6 : List.range 6 = List.range 5 ++ [5] := by decide
      rw [hr6, List.map_append]
      simp
  · -- six-week month: no extension needed
    rw [hv]
    rw [if_neg (by norm_num)]
    rw [hmdc 6 hv]

theorem displayCalendarRows_length (y m : Nat) (hy : 1 ≤ y) (hm1 : 1 ≤ m)
    (hm2 : m ≤ 12) : (displayCalendarRows y m).length = 6 := by
  rw [displayCalendarRows_eq y m hy hm1 hm2]
  simp

theorem displayCalendarRows_row_length (y m : Nat) (hy : 1 ≤ y) (hm1 : 1 ≤ m)
    (hm2 : m ≤ 12) (i : Nat) (hi : i < 6) :
    ((displayCalendarRows y m).getD i []).length = 7 := by
  rw [displayCalendarRows_eq y m hy hm1 hm2, rangeMap_getD _ _ _ _ hi, weekRow_length]

theorem gridCellDate_eq (y m : Nat) (hy : 1 ≤ y) (hm1 : 1 ≤ m) (hm2 : m ≤ 12)
    (i j : Nat) (hi : i < 6) (hj : j < 7) :
    gridCellDate y m i j
      = addDays (subDays ⟨y, m, 1⟩ (pyWeekday ⟨y, m, 1⟩)) (7 * i + j) := by
  unfold gridCellDate
  rw [displayCalendarRows_eq y m hy hm1 hm2, rangeMap_getD _ _ _ _ hi]
  exact weekRow_getD _ _ _ _ hj

theorem firstOfMonth_valid (y m : Nat) (hy : 1 ≤ y) (hm1 : 1 ≤ m) (hm2 : m ≤ 12) :
    ValidDate ⟨y, m, 1⟩ := by
  have hnd := daysInMonth_bounds y m hm1 hm2
  exact ⟨hy, hm1, hm2, le_refl 1, by dsimp only; omega⟩

theorem pyWeekday_le_ordinal (d : Date) (h : 1 ≤ toOrdinal d) :
    pyWeekday d + 1 ≤ toOrdinal d := by
  unfold pyWeekday
  omega

theorem gridStart_spec (y m : Nat) (hy : 1 ≤ y) (hm1 : 1 ≤ m) (hm2 : m ≤ 12) :
    ValidDate (subDays ⟨y, m, 1⟩ (pyWeekday ⟨y, m, 1⟩)) ∧
    toOrdinal (subDays ⟨y, m, 1⟩ (pyWeekday ⟨y, m, 1⟩)) + pyWeekday ⟨y, m, 1⟩
      = toOrdinal ⟨y, m, 1⟩ ∧
    pyWeekday (subDays ⟨y, m, 1⟩ (pyWeekday ⟨y, m, 1⟩)) = 0 := by
  have hvf := firstOfMonth_valid y m hy hm1 hm2
  have hF1 : 1 ≤ toOrdinal ⟨y, m, 1⟩ := toOrdinal_pos _ (le_refl 1)
  obtain ⟨hvs, hords, _⟩ := subDays_spec hvf (pyWeekday_le_ordinal _ hF1)
  refine ⟨hvs, hords, ?_⟩
  unfold pyWeekday at hords ⊢
  omega

/-- C1: for every year and month 1-12, the grid computed by
`_display_calendar` has exactly 6 rows of 7 cells; the cell at row `i`,
column `j` is the date `7 * i + j` days after the grid start, so the 42
cells are consecutive calendar dates; the start is the Monday on or before
the 1st of the month (same week, `pyWeekday = 0`, at most 6 days before
the 1st); and every day of the displayed month occupies exactly one cell. -/
theorem C1_display_calendar_grid (y m : Nat)
    (hy : 1 ≤ y) (hm1 : 1 ≤ m) (hm2 : m ≤ 12) :
    (displayCalendarRows y m).length = 6 ∧
    (∀ i, i < 6 → ((displayCalendarRows y m).getD i []).length = 7) ∧
    (∀ i j, i < 6 → j < 7 →
      gridCellDate y m i j
        = addDays (subDays ⟨y, m, 1⟩ (pyWeekday ⟨y, m, 1⟩)) (7 * i + j)) ∧
    (∀ i j, i < 6 → j < 7 →
      toOrdinal (gridCellDate y m i j) + pyWeekday ⟨y, m, 1⟩
        = toOrdinal ⟨y, m, 1⟩ + (7 * i + j)) ∧
    gridCellDate y m 0 0 = subDays ⟨y, m, 1⟩ (pyWeekday ⟨y, m, 1⟩) ∧
    pyWeekday (gridCellDate y m 0 0) = 0 ∧
    toOrdinal (gridCellDate y m 0 0) + pyWeekday ⟨y, m, 1⟩ = toOrdinal ⟨y, m, 1⟩ ∧
    pyWeekday ⟨y, m, 1⟩ < 7 ∧
    (∀ d, 1 ≤ d → d ≤ daysInMonth y m →
      ∃! p : Nat × Nat, p.1 < 6 ∧ p.2 < 7 ∧ gridCellDate y m p.1 p.2 = ⟨y, m, d⟩) := by
  have hvf := firstOfMonth_valid y m hy hm1 hm2
  have hnd := daysInMonth_bounds y m hm1 hm2
  have hwd : pyWeekday ⟨y, m, 1⟩ < 7 := Nat.mod_lt _ (by norm_num)
  have hF1 : 1 ≤ toOrdinal ⟨y, m, 1⟩ := toOrdinal_pos _ (le_refl 1)
  have hwdF := pyWeekday_le_ordinal _ hF1
  obtain ⟨hvs, hords, hmon⟩ := gridStart_spec y m hy hm1 hm2
  have hcell := gridCellDate_eq y m hy hm1 hm2
  have hcord : ∀ i j, i < 6 → j < 7 →
      toOrdinal (gridCellDate y m i j) + pyWeekday ⟨y, m, 1⟩
        = toOrdinal ⟨y, m, 1⟩ + (7 * i + j) := by
    intro i j hi hj
    rw [hcell i j hi hj, toOrdinal_addDays hvs]
    omega
  have hcell00 : gridCellDate y m 0 0 = subDays ⟨y, m, 1⟩ (pyWeekday ⟨y, m, 1⟩) := by
    rw [hcell 0 0 (by norm_num) (by norm_num)]
    rfl
  refine ⟨displayCalendarRows_length y m hy hm1 hm2,
    fun i hi => displayCalendarRows_row_length y m hy hm1 hm2 i hi,
    hcell, hcord, hcell00, by rw [hcell00]; exact hmon, by rw [hcell00]; exact hords,
    hwd, ?_⟩
  intro d hd1 hd2
  have hday : addDays ⟨y, m, 1⟩ (d - 1) = ⟨y, m, d⟩ := by
    rcases Nat.eq_or_lt_of_le hd1 with h1 | h1
    · rw [← h1]
      rfl
    · rw [addDays_first_in_month y m (d - 1) (by omega)]
      have : d - 1 + 1 = d := by omega
      rw [this]
  have hk : addDays (subDays ⟨y, m, 1⟩ (pyWeekday ⟨y, m, 1⟩))
      (pyWeekday ⟨y, m, 1⟩ + (d - 1)) = ⟨y, m, d⟩ := by
    rw [addDays_subDays hvf hwdF (by omega)]
    have : pyWeekday ⟨y, m, 1⟩ + (d - 1) - pyWeekday ⟨y, m, 1⟩ = d - 1 := by omega
    rw [this, hday]
  refine ⟨⟨(pyWeekday ⟨y, m, 1⟩ + (d - 1)) / 7, (pyWeekday ⟨y, m, 1⟩ + (d - 1)) % 7⟩,
    ⟨by dsimp only; omega, by dsimp only; omega, ?_⟩, ?_⟩
  · dsimp only
    rw [hcell _ _ (by omega) (by omega)]
    have : 7 * ((pyWeekday ⟨y, m, 1⟩ + (d - 1)) / 7)
        + (pyWeekday ⟨y, m, 1⟩ + (d - 1)) % 7 = pyWeekday ⟨y, m, 1⟩ + (d - 1) := by
      omega
    rw [this, hk]
  · rintro ⟨a, b⟩ ⟨ha, hb, hab⟩
    dsimp only at ha hb hab
    have h1 := hcord a b ha hb
    rw [hab] at h1
    have h2 : toOrdinal (⟨y, m, d⟩ : Date) = toOrdinal ⟨y, m, 1⟩ + (d - 1) := by
      unfold toOrdinal
      dsimp only
      omega
    rw [h2] at h1
    have hsplit : a = (pyWeekday ⟨y, m, 1⟩ + (d - 1)) / 7
        ∧ b = (pyWeekday ⟨y, m, 1⟩ + (d - 1)) % 7 := by omega
    rw [hsplit.1, hsplit.2]

/-- Witness for C1, instantiated at February 2024 (a leap year). -/
theorem C1_display_calendar_grid_witness :
    (1 ≤ 2024 ∧ 1 ≤ 2 ∧ 2 ≤ 12) ∧
    ((displayCalendarRows 2024 2).length = 6 ∧
    (∀ i, i < 6 → ((displayCalendarRows 2024 2).getD i []).length = 7) ∧
    (∀ i j, i < 6 → j < 7 →
      gridCellDate 2024 2 i j
        = addDays (subDays ⟨2024, 2, 1⟩ (pyWeekday ⟨2024, 2, 1⟩)) (7 * i + j)) ∧
    (∀ i j, i < 6 → j < 7 →
      toOrdinal (gridCellDate 2024 2 i j) + pyWeekday ⟨2024, 2, 1⟩
        = toOrdinal ⟨2024, 2, 1⟩ + (7 * i + j)) ∧
    gridCellDate 2024 2 0 0 = subDays ⟨2024, 2, 1⟩ (pyWeekday ⟨2024, 2, 1⟩) ∧
    pyWeekday (gridCellDate 2024 2 0 0) = 0 ∧
    toOrdinal (gridCellDate 2024 2 0 0) + pyWeekday ⟨2024, 2, 1⟩
      = toOrdinal ⟨2024, 2, 1⟩ ∧
    pyWeekday ⟨2024, 2, 1⟩ < 7 ∧
    (∀ d, 1 ≤ d → d ≤ daysInMonth 2024 2 →
      ∃! p : Nat × Nat, p.1 < 6 ∧ p.2 < 7 ∧
        gridCellDate 2024 2 p.1 p.2 = ⟨2024, 2, d⟩)) :=
  ⟨⟨by decide, by decide, by decide⟩,
    C1_display_calendar_grid 2024 2 (by decide) (by decide) (by decide)⟩

/-! ### ISO calendar (`datetime.date.isocalendar`, an external collaborator
used by `_display_calendar` and `_display_selection`) -/

/-- Ordinal of the Monday starting ISO week 1 of year `y`, as in
`datetime`'s `_isoweek1monday` (ISO week 1 is the week containing the
year's first Thursday). -/
def isoweek1monday (y : Nat) : Int :=
  let firstday : Int := toOrdinal ⟨y, 1, 1⟩
  let firstweekday := (firstday + 6) % 7
  let week1monday := firstday - firstweekday
  if firstweekday > 3 then week1monday + 7 else week1monday

/-- Model of `date.isocalendar()`: (ISO year, ISO week, ISO weekday).
Python's `divmod` is floor division; the divisor 7 is positive, so Lean's
Euclidean `/` and `%` on `Int` agree with it. -/
def isocalendar (d : Date) : Nat × Nat × Nat :=
  let year := d.year
  let today : Int := toOrdinal d
  let week := (today - isoweek1monday year) / 7
  let day := (today - isoweek1monday year) % 7
  if week < 0 then
    (year - 1,
      ((today - isoweek1monday (year - 1)) / 7 + 1).toNat,
      ((today - isoweek1monday (year - 1)) % 7 + 1).toNat)
  else if 52 ≤ week ∧ isoweek1monday (year + 1) ≤ today then
    (year + 1, 1, (day + 1).toNat)
  else
    (year, (week + 1).toNat, (day + 1).toNat)

theorem daysInYear_bounds (y : Nat) : 365 ≤ daysInYear y ∧ daysInYear y ≤ 366 := by
  unfold daysInYear
  split <;> omega

theorem ord_jan1_succ (y : Nat) (hy : 1 ≤ y) :
    toOrdinal ⟨y + 1, 1, 1⟩ = toOrdinal ⟨y, 1, 1⟩ + daysInYear y := by
  unfold toOrdinal
  dsimp only
  have h := daysBeforeYear_succ y hy
  have hb1 : daysBeforeMonth (y + 1) 1 = 0 := by norm_num [daysBeforeMonth]
  have hb2 : daysBeforeMonth y 1 = 0 := by norm_num [daysBeforeMonth]
  omega

theorem ord_in_year (d : Date) (hv : ValidDate d) :
    toOrdinal ⟨d.year, 1, 1⟩ ≤ toOrdinal d ∧
    toOrdinal d + 1 ≤ toOrdinal ⟨d.year, 1, 1⟩ + daysInYear d.year := by
  obtain ⟨hy, hm1, hm2, hd1, hd2⟩ := hv
  unfold toOrdinal
  dsimp only
  have hb1 : daysBeforeMonth d.year 1 = 0 := by norm_num [daysBeforeMonth]
  have hmono : daysBeforeMonth d.year 1 ≤ daysBeforeMonth d.year d.month :=
    daysBeforeMonth_mono d.year hm1
  have hsucc := daysBeforeMonth_succ d.year d.month hm1
  have hmono2 : daysBeforeMonth d.year (d.month + 1) ≤ daysBeforeMonth d.year 13 :=
    daysBeforeMonth_mono d.year (by omega)
  have h13 := daysBeforeMonth_13 d.year
  omega

theorem isoweek1monday_bounds (y : Nat) :
    (toOrdinal ⟨y, 1, 1⟩ : Int) - 3 ≤ isoweek1monday y ∧
    isoweek1monday y ≤ (toOrdinal ⟨y, 1, 1⟩ : Int) + 3 ∧
    isoweek1monday y % 7 = 1 := by
  unfold isoweek1monday
  dsimp only
  split_ifs with h <;> omega

theorem isoweek1monday_step (y : Nat) (hy : 1 ≤ y) :
    isoweek1monday y + 364 ≤ isoweek1monday (y + 1) ∧
    isoweek1monday (y + 1) ≤ isoweek1monday y + 371 ∧
    (isoweek1monday (y + 1) - isoweek1monday y) % 7 = 0 := by
  have hb1 := isoweek1monday_bounds y
  have hb2 := isoweek1monday_bounds (y + 1)
  have ho := ord_jan1_succ y hy
  have hd := daysInYear_bounds y
  omega

theorem isoweek1monday_mono {a b : Nat} (ha : 1 ≤ a) (hab : a ≤ b) :
    isoweek1monday a ≤ isoweek1monday b := by
  induction b with
  | zero => omega
  | succ k ih =>
    rcases Nat.lt_or_ge a (k + 1) with h | h
    · have h1 := ih (by omega)
      have h2 := isoweek1monday_step k (by omega)
      omega
    · have : a = k + 1 := by omega
      rw [this]

theorem isocalendar_spec (d : Date) (hv : ValidDate d) :
    1 ≤ (isocalendar d).1 ∧
    d.year ≤ (isocalendar d).1 + 1 ∧ (isocalendar d).1 ≤ d.year + 1 ∧
    isoweek1monday (isocalendar d).1 ≤ (toOrdinal d : Int) ∧
    (toOrdinal d : Int) < isoweek1monday ((isocalendar d).1 + 1) ∧
    ((isocalendar d).2.1 : Int)
      = ((toOrdinal d : Int) - isoweek1monday (isocalendar d).1) / 7 + 1 ∧
    ((isocalendar d).2.2 : Int)
      = ((toOrdinal d : Int) - isoweek1monday (isocalendar d).1) % 7 + 1 := by
  have hy1 : 1 ≤ d.year := hv.1
  obtain ⟨hO1, hO2⟩ := ord_in_year d hv
  have hD := daysInYear_bounds d.year
  have hb0 := isoweek1monday_bounds d.year
  have hb1 := isoweek1monday_bounds (d.year + 1)
  have hs0 := isoweek1monday_step d.year hy1
  have hs1 := isoweek1monday_step (d.year + 1) (by omega)
  unfold isocalendar
  dsimp only
  split_ifs with hc1 hc2
  · -- date belongs to the last ISO week of the previous year
    have hy2 : 2 ≤ d.year := by
      by_contra hlt
      have hy1' : d.year = 1 := by omega
      rw [hy1'] at hc1 hO1
      have hw1 : isoweek1monday 1 = 1 := by decide
      have hone : toOrdinal (⟨1, 1, 1⟩ : Date) = 1 := by decide
      rw [hw1] at hc1
      rw [hone] at hO1
      omega
    have hyy : d.year - 1 + 1 = d.year := by omega
    have hbp := isoweek1monday_bounds (d.year - 1)
    have hsp := isoweek1monday_step (d.year - 1) (by omega)
    rw [hyy] at hsp
    have hop := ord_jan1_succ (d.year - 1) (by omega)
    rw [hyy] at hop
    have hDp := daysInYear_bounds (d.year - 1)
    dsimp only
    have hlow : isoweek1monday (d.year - 1) ≤ (toOrdinal d : Int) := by omega
    have hnn1 : 0 ≤ ((toOrdinal d : Int) - isoweek1monday (d.year - 1)) / 7 + 1 := by
      omega
    have hnn2 : 0 ≤ ((toOrdinal d : Int) - isoweek1monday (d.year - 1)) % 7 + 1 := by
      omega
    rw [Int.toNat_of_nonneg hnn1, Int.toNat_of_nonneg hnn2]
    refine ⟨by omega, by omega, by omega, hlow, ?_, rfl, rfl⟩
    rw [hyy]
    omega
  · -- date belongs to ISO week 1 of the next year
    dsimp only
    have hnn2 : 0 ≤ ((toOrdinal d : Int) - isoweek1monday d.year) % 7 + 1 := by omega
    rw [Int.toNat_of_nonneg hnn2]
    refine ⟨by omega, by omega, by omega, hc2.2, by omega, by omega, by omega⟩
  · -- ordinary case: the date is in its own ISO year
    dsimp only
    have hnn1 : 0 ≤ ((toOrdinal d : Int) - isoweek1monday d.year) / 7 + 1 := by omega
    have hnn2 : 0 ≤ ((toOrdinal d : Int) - isoweek1monday d.year) % 7 + 1 := by omega
    rw [Int.toNat_of_nonneg hnn1, Int.toNat_of_nonneg hnn2]
    refine ⟨by omega, by omega, by omega, by omega, by omega, rfl, rfl⟩

/-! ### Week-number labels (`_display_calendar` lines 558-561) and
selection highlighting (`_display_selection` lines 569-579) -/

/-- The week-number label of grid row `i` (0-based), as computed in
`_display_calendar`: `(week_nb + i_week - 1) % modulo + 1` with
`modulo = max(week_nb, 52)` and `week_nb` the ISO week of the first day
of the displayed month (`self._date.isocalendar()[1]`). -/
def weekNumberLabel (y m i : Nat) : Nat :=
  let week_nb := (isocalendar ⟨y, m, 1⟩).2.1
  let modulo := max week_nb 52
  (week_nb + i - 1) % modulo + 1

/-- The grid coordinates highlighted by `_display_selection`: `none` when
no cell is given the selection style, `some (row, col)` when the cell at
that position is highlighted. -/
def displaySelectionCell (sel : Option Date) (disp : Date) : Option (Nat × Nat) :=
  match sel with
  | Option.none => Option.none
  | Option.some s =>
    if s.year = disp.year then
      let w0 : Int := (isocalendar s).2.1
      let d0 : Nat := (isocalendar s).2.2
      let wn : Nat := (isocalendar disp).2.1
      let modulo : Int := (max 52 wn : Nat)
      let w : Int := (w0 - (wn : Int)) % modulo
      if 0 ≤ w ∧ w < 6 then Option.some (w.toNat, d0 - 1)
      else Option.none
    else Option.none

/-- Counterexample to C2 as stated: with December 30, 2024 selected
(ISO week 1 of ISO year 2025) and January 2024 displayed, the row offset
computed by `_display_selection` is 0, so the cell at row 0, column 0 is
highlighted -- but that cell holds January 1, 2024, not the selection. -/
theorem C2_display_selection_counterexample :
    displaySelectionCell (Option.some ⟨2024, 12, 30⟩) ⟨2024, 1, 1⟩
      = Option.some (0, 0) ∧
    gridCellDate 2024 1 0 0 = ⟨2024, 1, 1⟩ ∧
    (⟨2024, 1, 1⟩ : Date) ≠ ⟨2024, 12, 30⟩ := by
  refine ⟨by decide, by decide, by decide⟩

/-- C2 (amended): a selection of `none`, or one whose calendar year differs
from the displayed month's year, highlights no cell; whenever the computed
row offset `(selWeek - firstWeek) mod max(52, firstWeek)` lies in 0..5, the
cell at that row and at column (ISO weekday - 1) is the one highlighted,
and when the offset lies outside 0..5 no cell is highlighted.  The
highlighted cell holds a date equal to the selection whenever the selection
is one of the 42 dates actually displayed in the grid; for a same-year
selection outside the displayed grid the highlighted cell holds a
different date (see the counterexample). -/
theorem C2_display_selection_amended (y m k : Nat) (sel : Date)
    (hy : 1 ≤ y) (hm1 : 1 ≤ m) (hm2 : m ≤ 12) (hk : k < 42)
    (hsel : sel = gridCellDate y m (k / 7) (k % 7))
    (hyear : sel.year = y) :
    displaySelectionCell Option.none ⟨y, m, 1⟩ = Option.none ∧
    (∀ s : Date, s.year ≠ y →
      displaySelectionCell (Option.some s) ⟨y, m, 1⟩ = Option.none) ∧
    (∀ s : Date, s.year = y →
      ∀ w : Int,
      w = (((isocalendar s).2.1 : Int) - ((isocalendar ⟨y, m, 1⟩).2.1 : Int))
            % ((max 52 (isocalendar ⟨y, m, 1⟩).2.1 : Nat) : Int) →
      0 ≤ w → w < 6 →
      displaySelectionCell (Option.some s) ⟨y, m, 1⟩
        = Option.some (w.toNat, (isocalendar s).2.2 - 1)) ∧
    (∀ s : Date, s.year = y →
      ∀ w : Int,
      w = (((isocalendar s).2.1 : Int) - ((isocalendar ⟨y, m, 1⟩).2.1 : Int))
            % ((max 52 (isocalendar ⟨y, m, 1⟩).2.1 : Nat) : Int) →
      ¬ (0 ≤ w ∧ w < 6) →
      displaySelectionCell (Option.some s) ⟨y, m, 1⟩ = Option.none) ∧
    displaySelectionCell (Option.some sel) ⟨y, m, 1⟩
      = Option.some (k / 7, k % 7) ∧
    gridCellDate y m (k / 7) (k % 7) = sel := by
  have hvf := firstOfMonth_valid y m hy hm1 hm2
  obtain ⟨hvs, hords, hmon⟩ := gridStart_spec y m hy hm1 hm2
  have hwd : pyWeekday ⟨y, m, 1⟩ < 7 := Nat.mod_lt _ (by norm_num)
  have hsel2 : sel = addDays (subDays ⟨y, m, 1⟩ (pyWeekday ⟨y, m, 1⟩)) k := by
    rw [hsel, gridCellDate_eq y m hy hm1 hm2 (k / 7) (k % 7) (by omega) (by omega)]
    congr 1
    omega
  have hvsel : ValidDate sel := by rw [hsel2]; exact valid_addDays hvs k
  have hSord : toOrdinal sel
      = toOrdinal (subDays ⟨y, m, 1⟩ (pyWeekday ⟨y, m, 1⟩)) + k := by
    rw [hsel2]; exact toOrdinal_addDays hvs k
  have hO1 : 1 ≤ toOrdinal (subDays ⟨y, m, 1⟩ (pyWeekday ⟨y, m, 1⟩)) :=
    toOrdinal_pos _ hvs.2.2.2.1
  have hOmod : (toOrdinal (subDays ⟨y, m, 1⟩ (pyWeekday ⟨y, m, 1⟩)) + 6) % 7 = 0 :=
    hmon
  obtain ⟨hs1, hs2, hs3, hs4, hs5, hs6, hs7⟩ := isocalendar_spec sel hvsel
  obtain ⟨hf1, hf2, hf3, hf4, hf5, hf6, hf7⟩ := isocalendar_spec ⟨y, m, 1⟩ hvf
  dsimp only at hf2 hf3
  rw [hyear] at hs2 hs3
  have hbYs := isoweek1monday_bounds (isocalendar sel).1
  have hbYf := isoweek1monday_bounds (isocalendar ⟨y, m, 1⟩).1
  have hstepYf1 := isoweek1monday_step ((isocalendar ⟨y, m, 1⟩).1 + 1) (by omega)
  have hcol : (isocalendar sel).2.2 = k % 7 + 1 := by
    omega
  have hM52 : 52 ≤ max 52 (isocalendar ⟨y, m, 1⟩).2.1 := le_max_left _ _
  have hMW : (isocalendar ⟨y, m, 1⟩).2.1 ≤ max 52 (isocalendar ⟨y, m, 1⟩).2.1 :=
    le_max_right _ _
  have hMor : max 52 (isocalendar ⟨y, m, 1⟩).2.1 = 52
      ∨ max 52 (isocalendar ⟨y, m, 1⟩).2.1 = (isocalendar ⟨y, m, 1⟩).2.1 :=
    max_choice _ _
  -- the ISO year of the first of the displayed month is at most the
  -- calendar year
  have hF_O : toOrdinal ⟨y, m, 1⟩ = toOrdinal ⟨y, 1, 1⟩ + daysBeforeMonth y m := by
    unfold toOrdinal
    dsimp only
    have hb1 : daysBeforeMonth y 1 = 0 := by norm_num [daysBeforeMonth]
    omega
  have hdbm_le : daysBeforeMonth y m ≤ daysBeforeMonth y 12 :=
    daysBeforeMonth_mono y (by omega)
  have h1312 : daysBeforeMonth y 13 = daysBeforeMonth y 12 + daysInMonth y 12 :=
    daysBeforeMonth_succ y 12 (by norm_num)
  have hdim12 : daysInMonth y 12 = 31 := by unfold daysInMonth; norm_num
  have h13 := daysBeforeMonth_13 y
  have hjan := ord_jan1_succ y hy
  have hbY1 := isoweek1monday_bounds (y + 1)
  have hDy := daysInYear_bounds y
  have hYf_le_y : (isocalendar ⟨y, m, 1⟩).1 ≤ y := by
    by_contra hgt
    have hYfeq : (isocalendar ⟨y, m, 1⟩).1 = y + 1 := by omega
    rw [hYfeq] at hf4
    omega
  have hYfYs : (isocalendar ⟨y, m, 1⟩).1 ≤ (isocalendar sel).1 := by
    by_contra hlt
    have h1 : (isocalendar sel).1 + 1 ≤ (isocalendar ⟨y, m, 1⟩).1 := by omega
    have h2 := isoweek1monday_mono (a := (isocalendar sel).1 + 1) (by omega) h1
    omega
  have hYsYf1 : (isocalendar sel).1 ≤ (isocalendar ⟨y, m, 1⟩).1 + 1 := by
    by_contra hlt
    have h2 := isoweek1monday_mono (a := (isocalendar ⟨y, m, 1⟩).1 + 1 + 1)
      (b := (isocalendar sel).1) (by omega) (by omega)
    omega
  have hrow : (((isocalendar sel).2.1 : Int) - ((isocalendar ⟨y, m, 1⟩).2.1 : Int))
      % ((max 52 (isocalendar ⟨y, m, 1⟩).2.1 : Nat) : Int) = ((k / 7 : Nat) : Int) := by
    rcases Nat.eq_or_lt_of_le hYfYs with hcase | hcase
    · -- same ISO year for the selection and the first of the month
      rw [← hcase] at hs4 hs5 hs6
      have hdiff : ((isocalendar sel).2.1 : Int) - ((isocalendar ⟨y, m, 1⟩).2.1 : Int)
          = ((k / 7 : Nat) : Int) := by omega
      rw [hdiff]
      exact Int.emod_eq_of_lt (by omega) (by omega)
    · -- the selection lies in the next ISO year
      have hcaseq : (isocalendar sel).1 = (isocalendar ⟨y, m, 1⟩).1 + 1 := by omega
      rw [hcaseq] at hs4 hs5 hs6
      have hstepYf := isoweek1monday_step (isocalendar ⟨y, m, 1⟩).1 hf1
      have hdiff : ((isocalendar sel).2.1 : Int) - ((isocalendar ⟨y, m, 1⟩).2.1 : Int)
          = ((k / 7 : Nat) : Int)
            - ((max 52 (isocalendar ⟨y, m, 1⟩).2.1 : Nat) : Int) := by
        rcases Nat.eq_or_lt_of_le hYf_le_y with hfy | hfy
        · -- the first of the month is in its own ISO year: that year has
          -- exactly 52 ISO weeks (no same-calendar-year date can spill into
          -- ISO week 1 of the following year in a 53-week ISO year)
          rw [hfy] at hs4 hs5 hs6 hf4 hf5 hf6 hbYf hstepYf
          have hOsel := ord_in_year sel hvsel
          rw [hyear] at hOsel
          omega
        · -- the first of the month belongs to the previous ISO year, in its
          -- last ISO week, so the modulus max(52, wn) is that year's week
          -- count
          have hfyeq : (isocalendar ⟨y, m, 1⟩).1 = y - 1 := by omega
          have hyy : y - 1 + 1 = y := by omega
          rw [hfyeq] at hs4 hs5 hs6 hf4 hf5 hf6 hbYf hstepYf
          rw [hyy] at hs4 hs5 hs6 hf5 hstepYf
          have hOf := ord_in_year ⟨y, m, 1⟩ hvf
          dsimp only at hOf
          have hbY := isoweek1monday_bounds y
          omega
      rw [hdiff, Int.sub_emod, Int.emod_self]
      rw [Int.sub_zero, Int.emod_emod_of_dvd _ (dvd_refl _)]
      exact Int.emod_eq_of_lt (by omega) (by omega)
  refine ⟨rfl, ?_, ?_, ?_, ?_, hsel.symm⟩
  · intro s hne
    unfold displaySelectionCell
    dsimp only
    rw [if_neg (show ¬ s.year = (⟨y, m, 1⟩ : Date).year from hne)]
  · intro s hse w hw h0 h6
    subst hw
    unfold displaySelectionCell
    dsimp only
    rw [if_pos (show s.year = (⟨y, m, 1⟩ : Date).year from hse)]
    rw [if_pos ⟨h0, h6⟩]
  · intro s hse w hw hcond
    subst hw
    unfold displaySelectionCell
    dsimp only
    rw [if_pos (show s.year = (⟨y, m, 1⟩ : Date).year from hse)]
    rw [if_neg hcond]
  · unfold displaySelectionCell
    dsimp only
    rw [if_pos (show sel.year = (⟨y, m, 1⟩ : Date).year from hyear)]
    rw [hrow]
    rw [if_pos (show (0 : Int) ≤ ((k / 7 : Nat) : Int)
        ∧ ((k / 7 : Nat) : Int) < 6 from ⟨by omega, by omega⟩)]
    rw [hcol]
    simp
    omega

set_option maxRecDepth 20000 in
/-- Witness for the amended C2: February 5, 2024 occupies row 5, column 0
of the January 2024 grid (the grid runs Jan 1 - Feb 11) and
`_display_selection` highlights exactly that cell. -/
theorem C2_display_selection_amended_witness :
    ((1 ≤ 2024 ∧ 1 ≤ 1 ∧ 1 ≤ 12) ∧ 35 < 42 ∧
      (⟨2024, 2, 5⟩ : Date) = gridCellDate 2024 1 (35 / 7) (35 % 7) ∧
      (⟨2024, 2, 5⟩ : Date).year = 2024) ∧
    (displaySelectionCell Option.none ⟨2024, 1, 1⟩ = Option.none ∧
    (∀ s : Date, s.year ≠ 2024 →
      displaySelectionCell (Option.some s) ⟨2024, 1, 1⟩ = Option.none) ∧
    (∀ s : Date, s.year = 2024 →
      ∀ w : Int,
      w = (((isocalendar s).2.1 : Int) - ((isocalendar ⟨2024, 1, 1⟩).2.1 : Int))
            % ((max 52 (isocalendar ⟨2024, 1, 1⟩).2.1 : Nat) : Int) →
      0 ≤ w → w < 6 →
      displaySelectionCell (Option.some s) ⟨2024, 1, 1⟩
        = Option.some (w.toNat, (isocalendar s).2.2 - 1)) ∧
    (∀ s : Date, s.year = 2024 →
      ∀ w : Int,
      w = (((isocalendar s).2.1 : Int) - ((isocalendar ⟨2024, 1, 1⟩).2.1 : Int))
            % ((max 52 (isocalendar ⟨2024, 1, 1⟩).2.1 : Nat) : Int) →
      ¬ (0 ≤ w ∧ w < 6) →
      displaySelectionCell (Option.some s) ⟨2024, 1, 1⟩ = Option.none) ∧
    displaySelectionCell (Option.some ⟨2024, 2, 5⟩) ⟨2024, 1, 1⟩
      = Option.some (35 / 7, 35 % 7) ∧
    gridCellDate 2024 1 (35 / 7) (35 % 7) = ⟨2024, 2, 5⟩) :=
  ⟨⟨⟨by decide, by decide, by decide⟩, by decide, by decide, by decide⟩,
    C2_display_selection_amended 2024 1 35 ⟨2024, 2, 5⟩ (by decide) (by decide)
      (by decide) (by decide) (by decide) (by decide)⟩

/-- C3: the week-number label of row `i` is
`((W + i - 1) mod max(W, 52)) + 1` where `W` is the ISO week number of the
displayed month's first day; across the six rows the labels increase by
exactly 1 per row except at most one wraparound point, where the label
falls from `max(W, 52)` to 1. -/
theorem C3_week_number_labels (y m : Nat)
    (hy : 1 ≤ y) (hm1 : 1 ≤ m) (hm2 : m ≤ 12) :
    (∀ i, weekNumberLabel y m i
      = ((isocalendar ⟨y, m, 1⟩).2.1 + i - 1)
          % max (isocalendar ⟨y, m, 1⟩).2.1 52 + 1) ∧
    (∀ i, i < 5 →
      weekNumberLabel y m (i + 1) = weekNumberLabel y m i + 1 ∨
      (weekNumberLabel y m i = max (isocalendar ⟨y, m, 1⟩).2.1 52 ∧
        weekNumberLabel y m (i + 1) = 1)) ∧
    (∀ i j, i < 5 → j < 5 →
      weekNumberLabel y m (i + 1) ≠ weekNumberLabel y m i + 1 →
      weekNumberLabel y m (j + 1) ≠ weekNumberLabel y m j + 1 →
      i = j) := by
  have hvf := firstOfMonth_valid y m hy hm1 hm2
  obtain ⟨hf1, hf2, hf3, hf4, hf5, hf6, hf7⟩ := isocalendar_spec ⟨y, m, 1⟩ hvf
  have hW1 : 1 ≤ (isocalendar ⟨y, m, 1⟩).2.1 := by omega
  have hM52 : 52 ≤ max (isocalendar ⟨y, m, 1⟩).2.1 52 := le_max_right _ _
  have hWM : (isocalendar ⟨y, m, 1⟩).2.1 ≤ max (isocalendar ⟨y, m, 1⟩).2.1 52 :=
    le_max_left _ _
  have hmod : ∀ t, t ≤ max (isocalendar ⟨y, m, 1⟩).2.1 52 + 4 →
      t % max (isocalendar ⟨y, m, 1⟩).2.1 52
        = if t < max (isocalendar ⟨y, m, 1⟩).2.1 52 then t
          else t - max (isocalendar ⟨y, m, 1⟩).2.1 52 := by
    intro t ht
    rcases Nat.lt_or_ge t (max (isocalendar ⟨y, m, 1⟩).2.1 52) with h | h
    · rw [if_pos h, Nat.mod_eq_of_lt h]
    · rw [if_neg (by omega), Nat.mod_eq_sub_mod h, Nat.mod_eq_of_lt (by omega)]
  refine ⟨fun i => rfl, ?_, ?_⟩
  · intro i hi
    have e1 := hmod ((isocalendar ⟨y, m, 1⟩).2.1 + i - 1) (by omega)
    have e2 := hmod ((isocalendar ⟨y, m, 1⟩).2.1 + (i + 1) - 1) (by omega)
    unfold weekNumberLabel
    dsimp only
    rw [e1, e2]
    split_ifs <;> omega
  · intro i j hi hj hwi hwj
    have e1 := hmod ((isocalendar ⟨y, m, 1⟩).2.1 + i - 1) (by omega)
    have e2 := hmod ((isocalendar ⟨y, m, 1⟩).2.1 + (i + 1) - 1) (by omega)
    have e3 := hmod ((isocalendar ⟨y, m, 1⟩).2.1 + j - 1) (by omega)
    have e4 := hmod ((isocalendar ⟨y, m, 1⟩).2.1 + (j + 1) - 1) (by omega)
    unfold weekNumberLabel at hwi hwj
    dsimp only at hwi hwj
    rw [e1, e2] at hwi
    rw [e3, e4] at hwj
    split_ifs at hwi hwj <;> omega

/-- Witness for C3 at December 2024, whose grid wraps from ISO week 52 to
week 1 between rows 4 and 5. -/
theorem C3_week_number_labels_witness :
    (1 ≤ 2024 ∧ 1 ≤ 12 ∧ 12 ≤ 12) ∧
    ((∀ i, weekNumberLabel 2024 12 i
      = ((isocalendar ⟨2024, 12, 1⟩).2.1 + i - 1)
          % max (isocalendar ⟨2024, 12, 1⟩).2.1 52 + 1) ∧
    (∀ i, i < 5 →
      weekNumberLabel 2024 12 (i + 1) = weekNumberLabel 2024 12 i + 1 ∨
      (weekNumberLabel 2024 12 i = max (isocalendar ⟨2024, 12, 1⟩).2.1 52 ∧
        weekNumberLabel 2024 12 (i + 1) = 1)) ∧
    (∀ i j, i < 5 → j < 5 →
      weekNumberLabel 2024 12 (i + 1) ≠ weekNumberLabel 2024 12 i + 1 →
      weekNumberLabel 2024 12 (j + 1) ≠ weekNumberLabel 2024 12 j + 1 →
      i = j)) :=
  ⟨⟨by decide, by decide, by decide⟩,
    C3_week_number_labels 2024 12 (by decide) (by decide) (by decide)⟩

/-! ### Widget state machine

State carried by the `Calendar` widget: the selected date `_sel_date`, the
displayed date `_date`, the bound text variable's contents (when one is
bound), the `selectmode` and the `state` options.  Each operation is
translated from calendar_.py as a state transition returning the new
state, the virtual events generated, and (where the source can raise) the
message of the raised error. -/

inductive SelectMode where
  | none
  | day
deriving DecidableEq, Repr

inductive WidgetState where
  | normal
  | disabled
deriving DecidableEq, Repr

inductive CalEvent where
  | calendarSelected
deriving DecidableEq, Repr

structure CalState where
  sel_date : Option Date
  date : Date
  textvar : Option String
  mode : SelectMode
  wstate : WidgetState
deriving DecidableEq, Repr

/-- Write the bound text variable when one is bound
(`if self._textvariable is not None: self._textvariable.set(...)`). -/
def setTextvar (st : CalState) (s : String) : CalState :=
  { st with textvar := st.textvar.map (fun _ => s) }

/-- The message of the error raised on an unparseable date string:
`"%r is not a valid date." % date` (`%r` wraps the string in quotes,
character 39). -/
def invalidDateMessage (s : String) : String :=
  String.singleton (Char.ofNat 39) ++ s ++ String.singleton (Char.ofNat 39)
    ++ " is not a valid date."

/-- `datetime.date(y, m, d)`: `some` when the arguments form a valid date
(years 1..9999), `none` when the constructor raises `ValueError`. -/
def mkDate (y m d : Nat) : Option Date :=
  if 1 ≤ y ∧ y ≤ 9999 ∧ 1 ≤ m ∧ m ≤ 12 ∧ 1 ≤ d ∧ d ≤ daysInMonth y m then
    Option.some ⟨y, m, d⟩
  else Option.none

/-- `_next_month` (lines 603-611): advance `_date` by the number of days
in the displayed month (`timedelta` arithmetic; the host library's
year-9999 cap is outside the model).  No event is generated. -/
def next_month (st : CalState) : CalState × List CalEvent :=
  ({ st with date := addDays st.date (daysInMonth st.date.year st.date.month) }, [])

/-- `_prev_month` (lines 613-617): one day before `_date`, then the day is
reset to 1. -/
def prev_month (st : CalState) : CalState × List CalEvent :=
  ({ st with date := ⟨(subDays st.date 1).year, (subDays st.date 1).month, 1⟩ }, [])

/-- `_next_year` (lines 619-623): `_date.replace(year=year + 1)`;
`replace` validates the result and raises (leaving the state unchanged)
otherwise. -/
def next_year (st : CalState) : CalState × List CalEvent :=
  match mkDate (st.date.year + 1) st.date.month st.date.day with
  | Option.some d => ({ st with date := d }, [])
  | Option.none => (st, [])

/-- `_prev_year` (lines 625-629): `_date.replace(year=year - 1)`. -/
def prev_year (st : CalState) : CalState × List CalEvent :=
  match mkDate (st.date.year - 1) st.date.month st.date.day with
  | Option.some d => ({ st with date := d }, [])
  | Option.none => (st, [])

/-- `_textvariable_trace` (lines 434-452) as a state transition.  The
locale parser `strptime(text, "%x")` and formatter `strftime("%x")` are
external collaborators passed as parameters.  Tcl suspends traces on a
variable while one of its trace callbacks runs, so the restoring
`set` inside the handler is a plain write. -/
def textvariable_trace (parse : String → Option Date) (fmt : Date → String)
    (st : CalState) : CalState × List CalEvent × Option String :=
  if st.mode = SelectMode.day then
    match st.textvar with
    | Option.none => (st, [], Option.none)
    | Option.some s =>
      if s = "" then ({ st with sel_date := Option.none }, [], Option.none)
      else
        match parse s with
        | Option.some d =>
          ({ st with sel_date := Option.some d, date := ⟨d.year, d.month, 1⟩ },
            [], Option.none)
        | Option.none =>
          (setTextvar st (match st.sel_date with
            | Option.none => ""
            | Option.some p => fmt p), [], Option.some (invalidDateMessage s))
  else (st, [], Option.none)

/-- Argument to `selection_set`: `None`, a `datetime.date`, or a string in
the locale's `%x` format. -/
inductive DateArg where
  | noDate
  | byDate (d : Date)
  | byString (s : String)

/-- `selection_set` (lines 665-693). -/
def selection_set (parse : String → Option Date) (fmt : Date → String)
    (st : CalState) (arg : DateArg) : CalState × List CalEvent × Option String :=
  if st.mode = SelectMode.day ∧ st.wstate = WidgetState.normal then
    match arg with
    | DateArg.noDate =>
      (setTextvar { st with sel_date := Option.none } "", [], Option.none)
    | DateArg.byDate d =>
      ({ setTextvar { st with sel_date := Option.some d } (fmt d) with
          date := ⟨d.year, d.month, 1⟩ }, [], Option.none)
    | DateArg.byString s =>
      match parse s with
      | Option.some d =>
        ({ setTextvar { st with sel_date := Option.some d } (fmt d) with
            date := ⟨d.year, d.month, 1⟩ }, [], Option.none)
      | Option.none => (st, [], Option.some (invalidDateMessage s))
  else (st, [], Option.none)

/-- `selection_get` (lines 654-663): the stored selection, mode-gated. -/
def selection_get (st : CalState) : Option Date :=
  if st.mode = SelectMode.day then st.sel_date else Option.none

/-- `get_date` (lines 695-700): the stored selection formatted with
`strftime("%x")`; note the source does not consult the selection mode
here. -/
def get_date (fmt : Date → String) (st : CalState) : String :=
  match st.sel_date with
  | Option.some d => fmt d
  | Option.none => ""

/-- `_on_click` (lines 632-651): the user clicks the grid cell at row `i`,
column `j`.  The clicked label's text is the cell's day number; its style
marks whether the cell belongs to another month, in which case the widget
first navigates to the previous month (row 0) or the next month. -/
def on_click (fmt : Date → String) (st : CalState) (i j : Nat) :
    CalState × List CalEvent :=
  if st.wstate = WidgetState.normal then
    let c := gridCellDate st.date.year st.date.month i j
    let nav :=
      if c.month ≠ st.date.month then
        (if i = 0 then prev_month st else next_month st)
      else (st, ([] : List CalEvent))
    let sel : Date := ⟨nav.1.date.year, nav.1.date.month, c.day⟩
    (setTextvar { nav.1 with sel_date := Option.some sel } (fmt sel),
      nav.2 ++ [CalEvent.calendarSelected])
  else (st, [])

/-- `Calendar.__init__` date handling (lines 117-135): the initial
displayed month and initial selection.  `tv0` is the bound text variable
with its prior contents (`none` = no `textvariable` option).  Returns
`none` when `self.date(year, month, 1)` raises. -/
def calInit (fmt : Date → String) (today : Date)
    (yearArg monthArg dayArg : Option Nat) (mode : SelectMode)
    (wstate : WidgetState) (tv0 : Option String) : Option CalState :=
  let pick :=
    if (monthArg.isSome || yearArg.isSome) && dayArg.isNone then
      (yearArg.getD today.year, monthArg.getD today.month,
        (Option.none : Option Date))
    else
      (yearArg.getD today.year, monthArg.getD today.month,
        mkDate (yearArg.getD today.year) (monthArg.getD today.month)
          (dayArg.getD today.day))
  match mkDate pick.1 pick.2.1 1 with
  | Option.some d1 =>
    Option.some
      { sel_date := pick.2.2,
        date := d1,
        textvar := match pick.2.2, tv0 with
          | Option.some d, Option.some _ => Option.some (fmt d)
          | _, _ => tv0,
        mode := mode,
        wstate := wstate }
  | Option.none => Option.none

/-- A concrete stand-in for the locale's `%x` formatter (non-empty for
every date). -/
def sampleFmt (d : Date) : String :=
  toString d.year ++ "-" ++ toString d.month ++ "-" ++ toString d.day

/-- C4: when the selection machinery is active (selectmode "day") and the
bound variable is set to a non-empty string that fails to parse, the trace
handler raises an invalid-date error whose message contains the offending
string, leaves the selected date and the displayed month unchanged, emits
no event, and resets the bound text to the formatted previous selection
(or to the empty string when there was none). -/
theorem C4_textvariable_trace_error (parse : String → Option Date)
    (fmt : Date → String) (st : CalState) (s : String)
    (hmode : st.mode = SelectMode.day) (htv : st.textvar = Option.some s)
    (hs : s ≠ "") (hp : parse s = Option.none) :
    (∃ msg, (textvariable_trace parse fmt st).2.2 = Option.some msg ∧
      ∃ a b, msg = a ++ s ++ b) ∧
    (textvariable_trace parse fmt st).1.sel_date = st.sel_date ∧
    (textvariable_trace parse fmt st).1.date = st.date ∧
    (textvariable_trace parse fmt st).2.1 = [] ∧
    (textvariable_trace parse fmt st).1.textvar
      = Option.some (match st.sel_date with
          | Option.none => ""
          | Option.some p => fmt p) := by
  unfold textvariable_trace
  rw [if_pos hmode, htv]
  dsimp only
  rw [if_neg hs, hp]
  dsimp only [setTextvar]
  refine ⟨⟨invalidDateMessage s,  rfl,
    String.singleton (Char.ofNat 39),
    String.singleton (Char.ofNat 39) ++ " is not a valid date.", ?_⟩,
    rfl, rfl, rfl, ?_⟩
  · unfold invalidDateMessage
    simp [String.append_assoc]
  · rw [htv]
    rfl

/-- A parser that rejects every string, for instantiating theorems about
the parse-failure path. -/
def parseNone : String → Option Date := fun _ => Option.none

/-- A sample widget state: selection March 10, 2024, displaying June 2024,
bound variable holding the string "garbage". -/
def garbageState : CalState where
  sel_date := Option.some ⟨2024, 3, 10⟩
  date := ⟨2024, 6, 1⟩
  textvar := Option.some "garbage"
  mode := SelectMode.day
  wstate := WidgetState.normal

/-- Witness for C4 at a state with a previous selection whose bound
variable holds an unparseable string. -/
theorem C4_textvariable_trace_error_witness :
    (garbageState.mode = SelectMode.day ∧
      garbageState.textvar = Option.some "garbage" ∧
      "garbage" ≠ "" ∧ parseNone "garbage" = Option.none) ∧
    ((∃ msg, (textvariable_trace parseNone sampleFmt garbageState).2.2
        = Option.some msg ∧ ∃ a b, msg = a ++ "garbage" ++ b) ∧
    (textvariable_trace parseNone sampleFmt garbageState).1.sel_date
      = garbageState.sel_date ∧
    (textvariable_trace parseNone sampleFmt garbageState).1.date
      = garbageState.date ∧
    (textvariable_trace parseNone sampleFmt garbageState).2.1 = [] ∧
    (textvariable_trace parseNone sampleFmt garbageState).1.textvar
      = Option.some (match garbageState.sel_date with
          | Option.none => ""
          | Option.some p => sampleFmt p)) :=
  ⟨⟨rfl, rfl, by decide, rfl⟩,
    C4_textvariable_trace_error parseNone sampleFmt garbageState "garbage"
      rfl rfl (by decide) rfl⟩

/-- C5: for every displayed month with day 1, next-month navigation lands
on the first of the following month (rolling December into January of the
next year) and previous-month navigation then restores the original
displayed month. -/
theorem C5_month_navigation_roundtrip (st : CalState) (y m : Nat)
    (hy : 1 ≤ y) (hm1 : 1 ≤ m) (hm2 : m ≤ 12) (hd : st.date = ⟨y, m, 1⟩) :
    (next_month st).1.date
      = ⟨if m + 1 = 13 then y + 1 else y, if m + 1 = 13 then 1 else m + 1, 1⟩ ∧
    (prev_month (next_month st).1).1.date = st.date := by
  have hnext : (next_month st).1.date
      = ⟨if m + 1 = 13 then y + 1 else y, if m + 1 = 13 then 1 else m + 1, 1⟩ := by
    unfold next_month
    dsimp only
    rw [hd]
    exact addDays_month_length y m hm1 hm2
  refine ⟨hnext, ?_⟩
  unfold prev_month
  dsimp only
  rw [hnext, hd]
  have hsub : ∀ d : Date, subDays d 1 = prevDate d := fun d => rfl
  rw [hsub]
  by_cases h13 : m + 1 = 13
  · rw [if_pos h13, if_pos h13]
    unfold prevDate
    rw [if_neg (by dsimp only; omega), if_neg (by dsimp only; omega)]
    dsimp only
    have hm12 : m = 12 := by omega
    have hyy : y + 1 - 1 = y := by omega
    rw [hm12, hyy]
  · rw [if_neg h13, if_neg h13]
    unfold prevDate
    rw [if_neg (by dsimp only; omega), if_pos (by dsimp only; omega)]
    dsimp only
    have hmm : m + 1 - 1 = m := by omega
    rw [hmm]

/-- A sample widget state displaying December 2024 with no selection. -/
def dec2024State : CalState where
  sel_date := Option.none
  date := ⟨2024, 12, 1⟩
  textvar := Option.none
  mode := SelectMode.day
  wstate := WidgetState.normal

/-- Witness for C5 at the spec's scenario: displayed December 2024; next
month yields January 2025, previous month then restores December 2024. -/
theorem C5_month_navigation_roundtrip_witness :
    (1 ≤ 2024 ∧ 1 ≤ 12 ∧ 12 ≤ 12 ∧ dec2024State.date = ⟨2024, 12, 1⟩) ∧
    ((next_month dec2024State).1.date
      = ⟨if 12 + 1 = 13 then 2024 + 1 else 2024,
          if 12 + 1 = 13 then 1 else 12 + 1, 1⟩ ∧
    (prev_month (next_month dec2024State).1).1.date = dec2024State.date) ∧
    (⟨if 12 + 1 = 13 then 2024 + 1 else 2024,
        if 12 + 1 = 13 then 1 else 12 + 1, 1⟩ : Date) = ⟨2025, 1, 1⟩ :=
  ⟨⟨by decide, by decide, by decide, rfl⟩,
    C5_month_navigation_roundtrip dec2024State 2024 12
      (by decide) (by decide) (by decide) rfl,
    by decide⟩

/-- Counterexample to C6 as stated: constructing with year=2024, month=5,
day=10 and selectmode "none" stores a selection (the source only skips the
initial selection when month or year is given without day); `get_date`
never consults the selection mode, so it returns the formatted stored
date, not the empty string. -/
theorem C6_get_date_counterexample :
    (calInit sampleFmt ⟨2024, 6, 15⟩ (Option.some 2024) (Option.some 5)
        (Option.some 10) SelectMode.none WidgetState.normal Option.none).map
      (fun st => (selection_get st, get_date sampleFmt st))
      = Option.some (Option.none, "2024-5-10") ∧
    "2024-5-10" ≠ "" := by
  refine ⟨by decide, by decide⟩

/-- C6 (amended): when the selection mode is "none", `selection_get`
returns `None`; `get_date`, however, ignores the selection mode: it
returns the empty string exactly when no selection is stored, and the
formatted stored selection otherwise. -/
theorem C6_accessors_mode_none_amended (fmt : Date → String) (st : CalState)
    (hmode : st.mode = SelectMode.none) :
    selection_get st = Option.none ∧
    (st.sel_date = Option.none → get_date fmt st = "") ∧
    (∀ d, st.sel_date = Option.some d → get_date fmt st = fmt d) := by
  refine ⟨?_, ?_, ?_⟩
  · unfold selection_get
    rw [if_neg (by rw [hmode]; decide)]
  · intro h
    unfold get_date
    rw [h]
  · intro d h
    unfold get_date
    rw [h]

/-- Witness for the amended C6 at the counterexample's constructed
state. -/
theorem C6_accessors_mode_none_amended_witness :
    ∃ st : CalState,
      calInit sampleFmt ⟨2024, 6, 15⟩ (Option.some 2024) (Option.some 5)
        (Option.some 10) SelectMode.none WidgetState.normal Option.none
        = Option.some st ∧
      st.mode = SelectMode.none ∧
      (selection_get st = Option.none ∧
        (st.sel_date = Option.none → get_date sampleFmt st = "") ∧
        (∀ d, st.sel_date = Option.some d → get_date sampleFmt st = sampleFmt d)) := by
  refine ⟨{ sel_date := Option.some ⟨2024, 5, 10⟩
            date := ⟨2024, 5, 1⟩
            textvar := Option.none
            mode := SelectMode.none
            wstate := WidgetState.normal }, by decide, rfl, ?_⟩
  exact C6_accessors_mode_none_amended sampleFmt _ rfl

/-- C7: constructing the widget with an explicit day that does not form a
valid date with the given year and month raises no error: the initial
selection is silently cleared while the displayed month is still set to
(year, month); an unbound text variable stays unbound. -/
theorem C7_invalid_day_cleared (fmt : Date → String) (today : Date)
    (y m d : Nat) (tv0 : Option String) (mode : SelectMode) (ws : WidgetState)
    (hym : mkDate y m 1 = Option.some ⟨y, m, 1⟩)
    (hbad : mkDate y m d = Option.none) :
    calInit fmt today (Option.some y) (Option.some m) (Option.some d)
        mode ws tv0
      = Option.some
          { sel_date := Option.none, date := ⟨y, m, 1⟩, textvar := tv0,
            mode := mode, wstate := ws } := by
  unfold calInit
  simp only [Option.isSome_some, Option.isNone_some, Bool.and_false,
    Bool.false_eq_true, if_false, Option.getD_some]
  rw [hym, hbad]

/-- Witness for C7 at the spec's scenario: year=2023, month=2, day=30
(February 30 does not exist). -/
theorem C7_invalid_day_cleared_witness :
    (mkDate 2023 2 1 = Option.some ⟨2023, 2, 1⟩ ∧
      mkDate 2023 2 30 = Option.none) ∧
    calInit sampleFmt ⟨2024, 6, 15⟩ (Option.some 2023) (Option.some 2)
        (Option.some 30) SelectMode.day WidgetState.normal Option.none
      = Option.some
          { sel_date := Option.none, date := ⟨2023, 2, 1⟩,
            textvar := Option.none, mode := SelectMode.day,
            wstate := WidgetState.normal } :=
  ⟨⟨by decide, by decide⟩,
    C7_invalid_day_cleared sampleFmt ⟨2024, 6, 15⟩ 2023 2 30 Option.none
      SelectMode.day WidgetState.normal (by decide) (by decide)⟩

/-- C8: `selection_set` is a no-op when the selection mode is "none" or
the widget state is disabled: for every argument, the whole state
(selected date, displayed month, bound text included) is unchanged, no
event is generated and no error is raised. -/
theorem C8_selection_set_noop (parse : String → Option Date)
    (fmt : Date → String) (st : CalState) (arg : DateArg)
    (h : st.mode = SelectMode.none ∨ st.wstate = WidgetState.disabled) :
    selection_set parse fmt st arg = (st, [], Option.none) := by
  unfold selection_set
  rw [if_neg ?hcond]
  case hcond =>
    rintro ⟨h1, h2⟩
    rcases h with h | h
    · rw [h] at h1
      exact absurd h1 (by decide)
    · rw [h] at h2
      exact absurd h2 (by decide)

/-- A disabled widget state with a stored selection and bound text. -/
def disabledState : CalState where
  sel_date := Option.some ⟨2024, 3, 10⟩
  date := ⟨2024, 6, 1⟩
  textvar := Option.some "x"
  mode := SelectMode.day
  wstate := WidgetState.disabled

/-- Witness for C8: a disabled widget with a stored selection; setting a
new date changes nothing. -/
theorem C8_selection_set_noop_witness :
    (disabledState.mode = SelectMode.none ∨
      disabledState.wstate = WidgetState.disabled) ∧
    selection_set parseNone sampleFmt disabledState
        (DateArg.byDate ⟨2025, 1, 1⟩)
      = (disabledState, [], Option.none) :=
  ⟨Or.inr rfl,
    C8_selection_set_noop parseNone sampleFmt disabledState
      (DateArg.byDate ⟨2025, 1, 1⟩) (Or.inr rfl)⟩

/-- C9: the `<<CalendarSelected>>` event is generated, exactly once, by
every click handled while the widget state is normal (clicks on
other-month cells navigate first and still select), and never by clicks
in the disabled state, by `selection_set`, by text-variable-driven
updates, or by month/year navigation. -/
theorem C9_calendar_selected_event (parse : String → Option Date)
    (fmt : Date → String) (st : CalState) (arg : DateArg) (i j : Nat) :
    (st.wstate = WidgetState.normal →
      (on_click fmt st i j).2 = [CalEvent.calendarSelected]) ∧
    (st.wstate = WidgetState.disabled → (on_click fmt st i j).2 = []) ∧
    (selection_set parse fmt st arg).2.1 = [] ∧
    (textvariable_trace parse fmt st).2.1 = [] ∧
    (next_month st).2 = [] ∧ (prev_month st).2 = [] ∧
    (next_year st).2 = [] ∧ (prev_year st).2 = [] := by
  refine ⟨?_, ?_, ?_, ?_, rfl, rfl, ?_, ?_⟩
  · intro h
    unfold on_click
    rw [if_pos h]
    dsimp only
    split_ifs <;> rfl
  · intro h
    unfold on_click
    rw [if_neg (by rw [h]; decide)]
  · unfold selection_set
    split_ifs with h
    · cases arg with
      | noDate => rfl
      | byDate d => rfl
      | byString s =>
        dsimp only
        rcases hp : parse s with _ | d <;> rfl
    · rfl
  · unfold textvariable_trace
    split_ifs with h
    · rcases htv : st.textvar with _ | s
      · rfl
      · dsimp only
        split_ifs with h2
        · rfl
        · rcases hp : parse s with _ | d <;> rfl
    · rfl
  · unfold next_year
    rcases hm : mkDate (st.date.year + 1) st.date.month st.date.day with _ | d <;> rfl
  · unfold prev_year
    rcases hm : mkDate (st.date.year - 1) st.date.month st.date.day with _ | d <;> rfl

/-- Witness for C9: a click on a normal-state widget generates the event;
a click on a disabled widget, a programmatic `selection_set`, a
text-variable update and year navigation do not. -/
theorem C9_calendar_selected_event_witness :
    ((on_click sampleFmt dec2024State 0 0).2 = [CalEvent.calendarSelected]) ∧
    ((on_click sampleFmt disabledState 0 0).2 = []) ∧
    (selection_set parseNone sampleFmt dec2024State DateArg.noDate).2.1 = [] ∧
    (textvariable_trace parseNone sampleFmt dec2024State).2.1 = [] ∧
    (next_year dec2024State).2 = [] :=
  ⟨(C9_calendar_selected_event parseNone sampleFmt dec2024State
      DateArg.noDate 0 0).1 rfl,
    (C9_calendar_selected_event parseNone sampleFmt disabledState
      DateArg.noDate 0 0).2.1 rfl,
    (C9_calendar_selected_event parseNone sampleFmt dec2024State
      DateArg.noDate 0 0).2.2.1,
    (C9_calendar_selected_event parseNone sampleFmt dec2024State
      DateArg.noDate 0 0).2.2.2.1,
    (C9_calendar_selected_event parseNone sampleFmt dec2024State
      DateArg.noDate 0 0).2.2.2.2.2.2.1⟩

/-- The displayed-date invariant of C10: `_date` has day 1 (carrying a
valid month, which the month arithmetic needs). -/
def DisplayInv (st : CalState) : Prop :=
  st.date.day = 1 ∧ 1 ≤ st.date.month ∧ st.date.month ≤ 12

theorem date_eta (st : CalState) (h : st.date.day = 1) :
    st.date = ⟨st.date.year, st.date.month, 1⟩ := by
  rw [← h]

theorem next_month_inv (st : CalState) (h : DisplayInv st) :
    DisplayInv (next_month st).1 := by
  obtain ⟨h1, h2, h3⟩ := h
  unfold next_month DisplayInv
  dsimp only
  rw [date_eta st h1]
  dsimp only
  rw [addDays_month_length _ _ h2 h3]
  dsimp only
  refine ⟨rfl, ?_⟩
  split_ifs <;> omega

theorem prev_month_inv (st : CalState) (h : DisplayInv st) :
    DisplayInv (prev_month st).1 := by
  obtain ⟨h1, h2, h3⟩ := h
  unfold prev_month DisplayInv
  dsimp only
  refine ⟨rfl, ?_⟩
  rw [date_eta st h1]
  have hsub : ∀ d : Date, subDays d 1 = prevDate d := fun d => rfl
  rw [hsub]
  unfold prevDate
  dsimp only
  split_ifs <;> dsimp only <;> omega

theorem mkDate_some {y m d : Nat} {dd : Date}
    (h : mkDate y m d = Option.some dd) :
    dd = ⟨y, m, d⟩ ∧ 1 ≤ m ∧ m ≤ 12 ∧ 1 ≤ d ∧ d ≤ daysInMonth y m := by
  unfold mkDate at h
  split_ifs at h with hc
  · injection h with h2
    exact ⟨h2.symm, hc.2.2.1, hc.2.2.2.1, hc.2.2.2.2.1, hc.2.2.2.2.2⟩

theorem next_year_inv (st : CalState) (h : DisplayInv st) :
    DisplayInv (next_year st).1 := by
  unfold next_year
  rcases hm : mkDate (st.date.year + 1) st.date.month st.date.day with _ | d
  · exact h
  · obtain ⟨he, hm1, hm2, _, _⟩ := mkDate_some hm
    unfold DisplayInv
    dsimp only
    rw [he]
    exact ⟨h.1, hm1, hm2⟩

theorem prev_year_inv (st : CalState) (h : DisplayInv st) :
    DisplayInv (prev_year st).1 := by
  unfold prev_year
  rcases hm : mkDate (st.date.year - 1) st.date.month st.date.day with _ | d
  · exact h
  · obtain ⟨he, hm1, hm2, _, _⟩ := mkDate_some hm
    unfold DisplayInv
    dsimp only
    rw [he]
    exact ⟨h.1, hm1, hm2⟩

theorem selection_set_inv (parse : String → Option Date) (fmt : Date → String)
    (st : CalState) (arg : DateArg)
    (hparse : ∀ s d, parse s = Option.some d → 1 ≤ d.month ∧ d.month ≤ 12)
    (harg : ∀ d, arg = DateArg.byDate d → 1 ≤ d.month ∧ d.month ≤ 12)
    (h : DisplayInv st) : DisplayInv (selection_set parse fmt st arg).1 := by
  unfold selection_set
  split_ifs with hc
  · cases arg with
    | noDate => exact h
    | byDate d =>
      obtain ⟨hm1, hm2⟩ := harg d rfl
      exact ⟨rfl, hm1, hm2⟩
    | byString s =>
      dsimp only
      rcases hp : parse s with _ | d
      · exact h
      · obtain ⟨hm1, hm2⟩ := hparse s d hp
        exact ⟨rfl, hm1, hm2⟩
  · exact h

theorem textvariable_trace_inv (parse : String → Option Date)
    (fmt : Date → String) (st : CalState)
    (hparse : ∀ s d, parse s = Option.some d → 1 ≤ d.month ∧ d.month ≤ 12)
    (h : DisplayInv st) : DisplayInv (textvariable_trace parse fmt st).1 := by
  unfold textvariable_trace
  split_ifs with hc
  · rcases htv : st.textvar with _ | s
    · exact h
    · dsimp only
      split_ifs with h2
      · exact h
      · rcases hp : parse s with _ | d
        · exact h
        · obtain ⟨hm1, hm2⟩ := hparse s d hp
          exact ⟨rfl, hm1, hm2⟩
  · exact h

theorem on_click_inv (fmt : Date → String) (st : CalState) (i j : Nat)
    (h : DisplayInv st) : DisplayInv (on_click fmt st i j).1 := by
  unfold on_click
  dsimp only
  split_ifs with hc h2 h3
  · exact prev_month_inv st h
  · exact next_month_inv st h
  · exact h
  · exact h

theorem calInit_inv (fmt : Date → String) (today : Date)
    (yA mA dA : Option Nat) (mode : SelectMode) (ws : WidgetState)
    (tv0 : Option String) (st : CalState)
    (h : calInit fmt today yA mA dA mode ws tv0 = Option.some st) :
    DisplayInv st := by
  unfold calInit at h
  dsimp only at h
  split at h
  · rename_i d1 heq
    injection h with h2
    obtain ⟨he, hm1, hm2, _, _⟩ := mkDate_some heq
    rw [← h2]
    unfold DisplayInv
    dsimp only
    rw [he]
    exact ⟨rfl, hm1, hm2⟩
  · cases h

/-- C10: the displayed date `_date` always has day component 1: the
invariant is established by construction and preserved by the four
navigation callbacks, by `selection_set`, by text-variable-driven updates,
and by clicks.  (The assumptions on `parse` and on a date argument
reflect that `strptime` returns well-formed dates and that `selection_set`
receives genuine `datetime.date` instances.) -/
theorem C10_displayed_day_one (parse : String → Option Date)
    (fmt : Date → String) (st st0 : CalState) (arg : DateArg) (i j : Nat)
    (today : Date) (yA mA dA : Option Nat) (mode : SelectMode)
    (ws : WidgetState) (tv0 : Option String)
    (hparse : ∀ s d, parse s = Option.some d → 1 ≤ d.month ∧ d.month ≤ 12)
    (harg : ∀ d, arg = DateArg.byDate d → 1 ≤ d.month ∧ d.month ≤ 12)
    (hinit : calInit fmt today yA mA dA mode ws tv0 = Option.some st0)
    (h : DisplayInv st) :
    st.date.day = 1 ∧
    (DisplayInv st0 ∧ st0.date.day = 1) ∧
    DisplayInv (next_month st).1 ∧ DisplayInv (prev_month st).1 ∧
    DisplayInv (next_year st).1 ∧ DisplayInv (prev_year st).1 ∧
    DisplayInv (selection_set parse fmt st arg).1 ∧
    DisplayInv (textvariable_trace parse fmt st).1 ∧
    DisplayInv (on_click fmt st i j).1 :=
  ⟨h.1,
    ⟨calInit_inv fmt today yA mA dA mode ws tv0 st0 hinit,
      (calInit_inv fmt today yA mA dA mode ws tv0 st0 hinit).1⟩,
    next_month_inv st h, prev_month_inv st h,
    next_year_inv st h, prev_year_inv st h,
    selection_set_inv parse fmt st arg hparse harg h,
    textvariable_trace_inv parse fmt st hparse h,
    on_click_inv fmt st i j h⟩

/-- The state constructed in the C7 scenario: displayed February 2023, no
selection. -/
def feb2023State : CalState where
  sel_date := Option.none
  date := ⟨2023, 2, 1⟩
  textvar := Option.none
  mode := SelectMode.day
  wstate := WidgetState.normal

/-- Witness for C10 at a concrete state (displayed December 2024) and the
construction scenario of C7. -/
theorem C10_displayed_day_one_witness :
    ((∀ s d, parseNone s = Option.some d → 1 ≤ d.month ∧ d.month ≤ 12) ∧
      (∀ d, DateArg.noDate = DateArg.byDate d → 1 ≤ d.month ∧ d.month ≤ 12) ∧
      calInit sampleFmt ⟨2024, 6, 15⟩ (Option.some 2023) (Option.some 2)
          (Option.some 30) SelectMode.day WidgetState.normal Option.none
        = Option.some feb2023State ∧
      DisplayInv dec2024State) ∧
    (dec2024State.date.day = 1 ∧
    (DisplayInv feb2023State ∧ feb2023State.date.day = 1) ∧
    DisplayInv (next_month dec2024State).1 ∧
    DisplayInv (prev_month dec2024State).1 ∧
    DisplayInv (next_year dec2024State).1 ∧
    DisplayInv (prev_year dec2024State).1 ∧
    DisplayInv (selection_set parseNone sampleFmt dec2024State
      DateArg.noDate).1 ∧
    DisplayInv (textvariable_trace parseNone sampleFmt dec2024State).1 ∧
    DisplayInv (on_click sampleFmt dec2024State 0 0).1) :=
  by
  constructor
  · refine ⟨?_, ?_, ?_, ?_⟩
    · exact fun s d hd => nomatch hd
    · exact fun d hd => nomatch hd
    · decide
    · exact ⟨rfl, by decide, by decide⟩
  · exact C10_displayed_day_one parseNone sampleFmt dec2024State feb2023State
      DateArg.noDate 0 0 ⟨2024, 6, 15⟩ (Option.some 2023) (Option.some 2)
      (Option.some 30) SelectMode.day WidgetState.normal Option.none
      (fun s d hd => nomatch hd) (fun d hd => nomatch hd) (by decide)
      ⟨rfl, by decide, by decide⟩
